import Mathlib

/-!
Task manager: a cache-aside service over a relational store.

Shallow embedding of the Go packages `entity`, `repository`, `service` and
`handler`.  The Redis server, the SQL database and `encoding/json` are
external to the repository; they appear as explicit state (`redis.Client`,
`sql.DB`) and as a codec parameter (`JSON`).  Every Go method becomes a
function from the state before the call to its result and the state after.
Tracing spans carry no data that reaches a result and are left out.
-/

/-- Go `error` values that the program distinguishes: `sql.ErrNoRows` and
every other error, identified by its message. -/
inductive Err where
  | ErrNoRows
  | failure (msg : String)
deriving DecidableEq, Repr

deriving instance DecidableEq for Except

/-- The text of `err.Error()`. -/
def Err.Error : Err → String
  | .ErrNoRows => "sql: no rows in result set"
  | .failure msg => msg

namespace entity

/-- A `time.Time` instant, counted in clock units. -/
abbrev Time := Int

/-- The `entity.Task` struct. -/
structure Task where
  IDTask : Int
  Title : String
  Description : String
  Status : String
  Priority : String
  DueDate : Time
  Done : Bool
  CreatedAt : Time
  UpdatedAt : Time
deriving DecidableEq, Repr

end entity

open entity

/-- The functions of `encoding/json` the program calls.  `none` stands for a
non-nil error.  `Marshal*` is `json.Marshal`, `Unmarshal*` is
`json.Unmarshal` into a fresh variable, `Decode` is
`json.NewDecoder(body).Decode` into a fresh `entity.Task`. -/
structure JSON where
  MarshalTasks : List Task → Option String
  UnmarshalTasks : String → Option (List Task)
  MarshalTask : Task → Option String
  UnmarshalTask : String → Option Task
  Decode : String → Option Task

namespace redis

/-- The commands the service sends to Redis. -/
inductive Cmd where
  | Get (key : String)
  | SetEx (key : String) (value : String) (ttl : Nat)
  | Del (key : String)
deriving DecidableEq, Repr

/-- A stored value with the instant (in seconds) at which it expires. -/
structure Entry where
  value : String
  expiresAt : Nat
deriving DecidableEq, Repr

/-- The Redis client together with the server it talks to.
`entries` is the key space, `now` the server clock in seconds, `log` the
commands sent so far, and `faults n` tells whether the command number `n`
(counted from 0) fails: a failed command returns an error and leaves the key
space as it was. -/
structure Client where
  entries : String → Option Entry
  now : Nat
  faults : Nat → Bool
  log : List Cmd

/-- Whether the next command fails. -/
def Client.failing (r : Client) : Bool := r.faults r.log.length

/-- Command `GET key`, as `Get(ctx, key).Result()`: `some v` when the error is
nil, `none` on `redis.Nil` (no live entry) and on every other error. -/
def Client.Get (r : Client) (key : String) : Option String × Client :=
  let r1 : Client := { r with log := r.log ++ [Cmd.Get key] }
  if r.failing then (none, r1)
  else
    match r.entries key with
    | some e => if r.now < e.expiresAt then (some e.value, r1) else (none, r1)
    | none => (none, r1)

/-- Command `SETEX key ttl value`; the caller drops the result. -/
def Client.SetEx (r : Client) (key : String) (value : String) (ttl : Nat) : Client :=
  let r1 : Client := { r with log := r.log ++ [Cmd.SetEx key value ttl] }
  if r.failing then r1
  else { r1 with entries := fun k => if k = key then some ⟨value, r.now + ttl⟩ else r.entries k }

/-- Command `DEL key`; the caller drops the result. -/
def Client.Del (r : Client) (key : String) : Client :=
  let r1 : Client := { r with log := r.log ++ [Cmd.Del key] }
  if r.failing then r1
  else { r1 with entries := fun k => if k = key then none else r.entries k }

/-- The live value under `key`: what a performed `GET` answers. -/
def Client.live (r : Client) (key : String) : Option String :=
  match r.entries key with
  | some e => if r.now < e.expiresAt then some e.value else none
  | none => none

/-- A run of `DEL` commands, one per key, in order. -/
def Client.DelAll (r : Client) (keys : List String) : Client :=
  keys.foldl (fun acc key => acc.Del key) r

/-- A client whose every command is performed. -/
def Client.performs (r : Client) : Prop := ∀ n, r.faults n = false

/-- A client whose every command fails. -/
def Client.unreachable (r : Client) : Prop := ∀ n, r.faults n = true

end redis

namespace repository

/-- One call on the `TaskRepository` interface. -/
inductive Call where
  | FindAll
  | FindByID (id : Int)
  | FindByStatus (status : String)
  | Create (task : Task)
  | Update (task : Task)
  | Delete (id : Int)
deriving DecidableEq, Repr

/-- The `TaskRepository` interface over a store state `σ`.  A pair
`(value, error)` of Go is an `Except`; a nil `*entity.Task` with a nil error is
`.ok none`; `Delete` returns only an error, `none` when it is nil. -/
structure TaskRepository (σ : Type) where
  FindAll : σ → Except Err (List Task) × σ
  FindByID : Int → σ → Except Err (Option Task) × σ
  FindByStatus : String → σ → Except Err (List Task) × σ
  Create : Task → σ → Except Err Task × σ
  Update : Task → σ → Except Err (Option Task) × σ
  Delete : Int → σ → Option Err × σ

end repository

namespace sql

/-- The database behind `*sql.DB`: the rows of table `tasks`, the next value
of the `id_task` sequence, the reading of `time.Now()`, and `fault`: when it
is `some e` the connection is broken and every statement fails with `e`; on a
working connection every statement of the repository succeeds and every row
scans. -/
structure DB where
  tasks : List Task
  seq : Int
  clock : Time
  fault : Option Err
deriving DecidableEq, Repr

/-- Rows in the order of `ORDER BY created_at DESC`. -/
def orderByCreatedAtDesc (rows : List Task) : List Task :=
  rows.insertionSort (fun a b => b.CreatedAt ≤ a.CreatedAt)

end sql

namespace repository

/-- Method `taskRepository.FindAll`. -/
def FindAll (db : sql.DB) : Except Err (List Task) × sql.DB :=
  match db.fault with
  | some err => (.error err, db)
  | none => (.ok (sql.orderByCreatedAtDesc db.tasks), db)

/-- Method `taskRepository.FindByID`: `sql.ErrNoRows` becomes `(nil, nil)`. -/
def FindByID (id : Int) (db : sql.DB) : Except Err (Option Task) × sql.DB :=
  match db.fault with
  | some err => (.error err, db)
  | none => (.ok (db.tasks.find? (fun t => t.IDTask = id)), db)

/-- Method `taskRepository.FindByStatus`. -/
def FindByStatus (status : String) (db : sql.DB) : Except Err (List Task) × sql.DB :=
  match db.fault with
  | some err => (.error err, db)
  | none => (.ok (sql.orderByCreatedAtDesc (db.tasks.filter (fun t => t.Status = status))), db)

/-- Method `taskRepository.Create`: the row takes the next sequence value and
`now` for both timestamps. -/
def Create (task : Task) (db : sql.DB) : Except Err Task × sql.DB :=
  match db.fault with
  | some err => (.error err, db)
  | none =>
    let created : Task :=
      { IDTask := db.seq, Title := task.Title, Description := task.Description,
        Status := task.Status, Priority := task.Priority, DueDate := task.DueDate,
        Done := task.Done, CreatedAt := db.clock, UpdatedAt := db.clock }
    (.ok created, { db with tasks := db.tasks ++ [created], seq := db.seq + 1 })

/-- The `SET` clause of `Update` applied to one row. -/
def setRow (task : Task) (now : Time) (row : Task) : Task :=
  { row with Title := task.Title, Description := task.Description, Status := task.Status,
             Priority := task.Priority, DueDate := task.DueDate, Done := task.Done,
             UpdatedAt := now }

/-- Method `taskRepository.Update`: `sql.ErrNoRows` becomes `(nil, nil)`. -/
def Update (task : Task) (db : sql.DB) : Except Err (Option Task) × sql.DB :=
  match db.fault with
  | some err => (.error err, db)
  | none =>
    let rows := db.tasks.map
      (fun row => if row.IDTask = task.IDTask then setRow task db.clock row else row)
    (.ok (rows.find? (fun t => t.IDTask = task.IDTask)), { db with tasks := rows })

/-- Method `taskRepository.Delete`: no row affected is `sql.ErrNoRows`. -/
def Delete (id : Int) (db : sql.DB) : Option Err × sql.DB :=
  match db.fault with
  | some err => (some err, db)
  | none =>
    let rowsAffected := (db.tasks.filter (fun t => t.IDTask = id)).length
    if rowsAffected = 0 then (some Err.ErrNoRows, db)
    else (none, { db with tasks := db.tasks.filter (fun t => ¬ t.IDTask = id) })

/-- Constructor `NewTaskRepository`. -/
def NewTaskRepository : TaskRepository sql.DB :=
  { FindAll := FindAll, FindByID := FindByID, FindByStatus := FindByStatus,
    Create := Create, Update := Update, Delete := Delete }

end repository

namespace service

open repository

def cacheAllTasks : String := "tasks:all"

/-- The key `fmt.Sprintf("tasks:id:%d", id)`. -/
def cacheTaskByID (id : Int) : String := "tasks:id:" ++ toString id

/-- The key `fmt.Sprintf("tasks:status:%s", status)`. -/
def cacheTaskStatus (status : String) : String := "tasks:status:" ++ status

/-- The time-to-live `60 * time.Second`, in seconds. -/
def cacheTTL : Nat := 60

/-- The `taskService` struct: the repository it was built with and the JSON
codec it calls.  The Redis client lives in the `World`. -/
structure taskService (σ : Type) where
  repo : TaskRepository σ
  json : JSON

/-- What a service call runs against: the store, the Redis client and the
record of repository calls made so far. -/
structure World (σ : Type) where
  store : σ
  redis : redis.Client
  calls : List Call

/-- Method `taskService.invalidateCache` on the Redis client. -/
def invalidateCache (r : redis.Client) (id : Int) : redis.Client :=
  let r1 := r.Del cacheAllTasks
  let r2 := if id ≠ 0 then r1.Del (cacheTaskByID id) else r1
  ["pending", "in_progress", "done", "cancelled"].foldl
    (fun acc status => acc.Del (cacheTaskStatus status)) r2

variable {σ : Type}

/-- Method `taskService.GetAllTasks`. -/
def GetAllTasks (s : taskService σ) (w : World σ) : Except Err (List Task) × World σ :=
  let got := w.redis.Get cacheAllTasks
  match got.1.bind s.json.UnmarshalTasks with
  | some tasks => (.ok tasks, { w with redis := got.2 })
  | none =>
    let found := s.repo.FindAll w.store
    let calls := w.calls ++ [Call.FindAll]
    match found.1 with
    | .error err => (.error err, { store := found.2, redis := got.2, calls := calls })
    | .ok tasks =>
      let data := (s.json.MarshalTasks tasks).getD ""
      (.ok tasks, { store := found.2, redis := got.2.SetEx cacheAllTasks data cacheTTL,
                    calls := calls })

/-- Method `taskService.GetTaskByID`. -/
def GetTaskByID (s : taskService σ) (id : Int) (w : World σ) :
    Except Err (Option Task) × World σ :=
  let key := cacheTaskByID id
  let got := w.redis.Get key
  match got.1.bind s.json.UnmarshalTask with
  | some task => (.ok (some task), { w with redis := got.2 })
  | none =>
    let found := s.repo.FindByID id w.store
    let calls := w.calls ++ [Call.FindByID id]
    match found.1 with
    | .error err => (.error err, { store := found.2, redis := got.2, calls := calls })
    | .ok none => (.ok none, { store := found.2, redis := got.2, calls := calls })
    | .ok (some task) =>
      let data := (s.json.MarshalTask task).getD ""
      (.ok (some task), { store := found.2, redis := got.2.SetEx key data cacheTTL,
                          calls := calls })

/-- Method `taskService.GetTaskByStatus`. -/
def GetTaskByStatus (s : taskService σ) (status : String) (w : World σ) :
    Except Err (List Task) × World σ :=
  let key := cacheTaskStatus status
  let got := w.redis.Get key
  match got.1.bind s.json.UnmarshalTasks with
  | some tasks => (.ok tasks, { w with redis := got.2 })
  | none =>
    let found := s.repo.FindByStatus status w.store
    let calls := w.calls ++ [Call.FindByStatus status]
    match found.1 with
    | .error err => (.error err, { store := found.2, redis := got.2, calls := calls })
    | .ok tasks =>
      let data := (s.json.MarshalTasks tasks).getD ""
      (.ok tasks, { store := found.2, redis := got.2.SetEx key data cacheTTL,
                    calls := calls })

/-- Method `taskService.CreateTask`. -/
def CreateTask (s : taskService σ) (task : Task) (w : World σ) :
    Except Err Task × World σ :=
  let done := s.repo.Create task w.store
  let calls := w.calls ++ [Call.Create task]
  match done.1 with
  | .error err => (.error err, { store := done.2, redis := w.redis, calls := calls })
  | .ok created =>
    (.ok created, { store := done.2, redis := invalidateCache w.redis 0, calls := calls })

/-- Method `taskService.UpdateTask`. -/
def UpdateTask (s : taskService σ) (task : Task) (w : World σ) :
    Except Err (Option Task) × World σ :=
  let done := s.repo.Update task w.store
  let calls := w.calls ++ [Call.Update task]
  match done.1 with
  | .error err => (.error err, { store := done.2, redis := w.redis, calls := calls })
  | .ok none => (.ok none, { store := done.2, redis := w.redis, calls := calls })
  | .ok (some updated) =>
    (.ok (some updated),
      { store := done.2, redis := invalidateCache w.redis task.IDTask, calls := calls })

/-- Method `taskService.DeleteTask`. -/
def DeleteTask (s : taskService σ) (id : Int) (w : World σ) : Option Err × World σ :=
  let done := s.repo.Delete id w.store
  let calls := w.calls ++ [Call.Delete id]
  match done.1 with
  | some err => (some err, { store := done.2, redis := w.redis, calls := calls })
  | none => (none, { store := done.2, redis := invalidateCache w.redis id, calls := calls })

end service

namespace service

open repository

/-- One call on the `TaskService` interface. -/
inductive Invocation where
  | GetAllTasks
  | GetTaskByID (id : Int)
  | GetTaskByStatus (status : String)
  | CreateTask (task : Task)
  | UpdateTask (task : Task)
  | DeleteTask (id : Int)
deriving DecidableEq, Repr

/-- The `TaskService` interface over a state `ω`. -/
structure TaskService (ω : Type) where
  GetAllTasks : ω → Except Err (List Task) × ω
  GetTaskByID : Int → ω → Except Err (Option Task) × ω
  GetTaskByStatus : String → ω → Except Err (List Task) × ω
  CreateTask : Task → ω → Except Err Task × ω
  UpdateTask : Task → ω → Except Err (Option Task) × ω
  DeleteTask : Int → ω → Option Err × ω

/-- Constructor `NewTaskService`. -/
def NewTaskService {σ : Type} (s : taskService σ) : TaskService (World σ) :=
  { GetAllTasks := GetAllTasks s, GetTaskByID := GetTaskByID s,
    GetTaskByStatus := GetTaskByStatus s, CreateTask := CreateTask s,
    UpdateTask := UpdateTask s, DeleteTask := DeleteTask s }

end service

namespace unicode

/-- Function `unicode.IsSpace`: the code points with the White_Space property. -/
def IsSpace (c : Char) : Bool :=
  let n := c.toNat
  (9 ≤ n && n ≤ 13) || n = 32 || n = 133 || n = 160 || n = 5760 ||
  (8192 ≤ n && n ≤ 8202) || n = 8232 || n = 8233 || n = 8239 || n = 8287 || n = 12288

end unicode

namespace strings

/-- Function `strings.TrimSpace`: drop leading and trailing white space. -/
def TrimSpace (s : String) : String :=
  String.mk (((s.data.dropWhile unicode.IsSpace).reverse.dropWhile unicode.IsSpace).reverse)

end strings

namespace strconv

/-- Value of a run of decimal digits, most significant first, on top of `acc`;
`none` when a character is not a digit. -/
def digits : List Char → Nat → Option Nat
  | [], acc => some acc
  | c :: cs, acc =>
    if 48 ≤ c.toNat ∧ c.toNat ≤ 57 then digits cs (acc * 10 + (c.toNat - 48)) else none

/-- Function `strconv.Atoi`: an optional sign, then at least one decimal
digit, and a value that fits a 64-bit `int`; `none` stands for an error. -/
def Atoi (s : String) : Option Int :=
  let signed : Option (Bool × List Char) :=
    match s.data with
    | [] => none
    | c :: cs =>
      if c.toNat = 43 then some (false, cs)
      else if c.toNat = 45 then some (true, cs)
      else some (false, c :: cs)
  match signed with
  | none => none
  | some (_, []) => none
  | some (neg, ds) =>
    match digits ds 0 with
    | none => none
    | some n =>
      if neg then (if n ≤ 2 ^ 63 then some (-(n : Int)) else none)
      else (if n < 2 ^ 63 then some (n : Int) else none)

end strconv

namespace handler

open service

/-- What the handlers read from an `*http.Request`: the path value `id`, the
query parameter `status` and the body. -/
structure Request where
  id : String
  status : String
  body : String
deriving DecidableEq, Repr

/-- The value given to `writeJSON`: an `error` or `message` envelope, a task
or a list of tasks. -/
inductive Payload where
  | error (message : String)
  | message (text : String)
  | task (t : Task)
  | tasks (ts : List Task)
deriving DecidableEq, Repr

/-- What `writeJSON` puts on the `http.ResponseWriter`. -/
structure Response where
  status : Nat
  data : Payload
deriving DecidableEq, Repr

def StatusOK : Nat := 200
def StatusCreated : Nat := 201
def StatusBadRequest : Nat := 400
def StatusNotFound : Nat := 404
def StatusInternalServerError : Nat := 500

/-- Function `writeError`. -/
def writeError (status : Nat) (message : String) : Response :=
  { status := status, data := Payload.error message }

/-- The `TaskHandler` struct, with the JSON codec its methods call. -/
structure TaskHandler (ω : Type) where
  service : TaskService ω
  json : JSON

/-- The state a handler runs against: the state behind the service and the
record of service calls made so far. -/
structure Served (ω : Type) where
  world : ω
  calls : List Invocation

/-- Function `extractID`. -/
def extractID (r : Request) : Option Int := strconv.Atoi r.id

variable {ω : Type}

/-- The defaults `CreateTask` fills in: status `pending`, then priority
`medium`, each when the field is empty. -/
def fillDefaults (task : Task) : Task :=
  let t1 : Task := if task.Status = "" then { task with Status := "pending" } else task
  if t1.Priority = "" then { t1 with Priority := "medium" } else t1

/-- Method `TaskHandler.CreateTask`. -/
def CreateTask (h : TaskHandler ω) (r : Request) (st : Served ω) : Response × Served ω :=
  match h.json.Decode r.body with
  | none => (writeError StatusBadRequest "invalid request body", st)
  | some decoded =>
    if strings.TrimSpace decoded.Title = "" then
      (writeError StatusBadRequest "title wajib diisi", st)
    else
      let task : Task := fillDefaults decoded
      let res := h.service.CreateTask task st.world
      let st1 : Served ω := { world := res.2, calls := st.calls ++ [Invocation.CreateTask task] }
      match res.1 with
      | .error err => (writeError StatusInternalServerError err.Error, st1)
      | .ok created => ({ status := StatusCreated, data := Payload.task created }, st1)

/-- Method `TaskHandler.GetAllTasks`. -/
def GetAllTasks (h : TaskHandler ω) (r : Request) (st : Served ω) : Response × Served ω :=
  if r.status ≠ "" then
    let res := h.service.GetTaskByStatus r.status st.world
    let st1 : Served ω :=
      { world := res.2, calls := st.calls ++ [Invocation.GetTaskByStatus r.status] }
    match res.1 with
    | .error err => (writeError StatusInternalServerError err.Error, st1)
    | .ok tasks => ({ status := StatusOK, data := Payload.tasks tasks }, st1)
  else
    let res := h.service.GetAllTasks st.world
    let st1 : Served ω := { world := res.2, calls := st.calls ++ [Invocation.GetAllTasks] }
    match res.1 with
    | .error err => (writeError StatusInternalServerError err.Error, st1)
    | .ok tasks => ({ status := StatusOK, data := Payload.tasks tasks }, st1)

/-- Method `TaskHandler.GetTaskByID`. -/
def GetTaskByID (h : TaskHandler ω) (r : Request) (st : Served ω) : Response × Served ω :=
  match extractID r with
  | none => (writeError StatusBadRequest "id tidak valid", st)
  | some id =>
    let res := h.service.GetTaskByID id st.world
    let st1 : Served ω := { world := res.2, calls := st.calls ++ [Invocation.GetTaskByID id] }
    match res.1 with
    | .error err => (writeError StatusInternalServerError err.Error, st1)
    | .ok none => (writeError StatusNotFound "task tidak ditemukan", st1)
    | .ok (some task) => ({ status := StatusOK, data := Payload.task task }, st1)

/-- Method `TaskHandler.UpdateTask`. -/
def UpdateTask (h : TaskHandler ω) (r : Request) (st : Served ω) : Response × Served ω :=
  match extractID r with
  | none => (writeError StatusBadRequest "id tidak valid", st)
  | some id =>
    match h.json.Decode r.body with
    | none => (writeError StatusBadRequest "invalid request body", st)
    | some decoded =>
      if strings.TrimSpace decoded.Title = "" then
        (writeError StatusBadRequest "title wajib diisi", st)
      else
        let task : Task := { decoded with IDTask := id }
        let res := h.service.UpdateTask task st.world
        let st1 : Served ω := { world := res.2, calls := st.calls ++ [Invocation.UpdateTask task] }
        match res.1 with
        | .error err => (writeError StatusInternalServerError err.Error, st1)
        | .ok none => (writeError StatusNotFound "task tidak ditemukan", st1)
        | .ok (some updated) => ({ status := StatusOK, data := Payload.task updated }, st1)

/-- Method `TaskHandler.DeleteTask`. -/
def DeleteTask (h : TaskHandler ω) (r : Request) (st : Served ω) : Response × Served ω :=
  match extractID r with
  | none => (writeError StatusBadRequest "id tidak valid", st)
  | some id =>
    let res := h.service.DeleteTask id st.world
    let st1 : Served ω := { world := res.2, calls := st.calls ++ [Invocation.DeleteTask id] }
    match res.1 with
    | some Err.ErrNoRows => (writeError StatusNotFound "task tidak ditemukan", st1)
    | some err => (writeError StatusInternalServerError err.Error, st1)
    | none => ({ status := StatusOK, data := Payload.message "task berhasil dihapus" }, st1)

end handler

namespace service

/-- The keys `invalidateCache` sends `DEL` for, in the order it sends them. -/
def invalidated (id : Int) : List String :=
  [cacheAllTasks] ++ (if id ≠ 0 then [cacheTaskByID id] else []) ++
    [cacheTaskStatus "pending", cacheTaskStatus "in_progress", cacheTaskStatus "done",
     cacheTaskStatus "cancelled"]

/-- A write succeeded from world `w` and left world `w2`: `CreateTask` returned
the created record, `UpdateTask` returned the updated record, or `DeleteTask`
returned a nil error. -/
def wrote {σ : Type} (s : taskService σ) (w w2 : World σ) : Prop :=
  (∃ task created, CreateTask s task w = (.ok created, w2)) ∨
  (∃ task updated, UpdateTask s task w = (.ok (some updated), w2)) ∨
  (∃ id, DeleteTask s id w = (none, w2))

end service

namespace sample

/-- A JSON codec restricted to the listed documents: `docs` pairs the text of
a task with the task, `lists` the text of a task list with the list. -/
def tableJSON (docs : List (String × Task)) (lists : List (String × List Task)) : JSON :=
  { MarshalTasks := fun ts => (lists.find? (fun d => d.2 = ts)).map (fun d => d.1)
    UnmarshalTasks := fun text => (lists.find? (fun d => d.1 = text)).map (fun d => d.2)
    MarshalTask := fun t => (docs.find? (fun d => d.2 = t)).map (fun d => d.1)
    UnmarshalTask := fun text => (docs.find? (fun d => d.1 = text)).map (fun d => d.2)
    Decode := fun text => (docs.find? (fun d => d.1 = text)).map (fun d => d.2) }

/-- A row with identifier 0. -/
def task0 : Task :=
  { IDTask := 0, Title := "old", Description := "", Status := "pending", Priority := "medium",
    DueDate := 0, Done := false, CreatedAt := 5, UpdatedAt := 5 }

def doc0 : String :=
  "\x7b\"id_task\":0,\"title\":\"old\",\"description\":\"\",\"status\":\"pending\"," ++
  "\"priority\":\"medium\",\"due_date\":\"0001-01-01T00:00:00Z\",\"done\":false," ++
  "\"created_at\":\"0001-01-01T00:00:05Z\",\"updated_at\":\"0001-01-01T00:00:05Z\"\x7d"

/-- A row with identifier 1. -/
def task1 : Task :=
  { IDTask := 1, Title := "Write spec", Description := "", Status := "pending",
    Priority := "medium", DueDate := 0, Done := false, CreatedAt := 7, UpdatedAt := 7 }

def doc1 : String :=
  "\x7b\"id_task\":1,\"title\":\"Write spec\",\"description\":\"\",\"status\":\"pending\"," ++
  "\"priority\":\"medium\",\"due_date\":\"0001-01-01T00:00:00Z\",\"done\":false," ++
  "\"created_at\":\"0001-01-01T00:00:07Z\",\"updated_at\":\"0001-01-01T00:00:07Z\"\x7d"

/-- The codec of the examples. -/
def json : JSON :=
  tableJSON [(doc0, task0), (doc1, task1)]
    [("null", []), ("[" ++ doc0 ++ "]", [task0]), ("[" ++ doc1 ++ "]", [task1])]

/-- The service of the examples: the SQL repository with the example codec. -/
def svc : service.taskService sql.DB :=
  { repo := repository.NewTaskRepository, json := json }

/-- A client that performs every command, with the given key space. -/
def client (entries : String → Option redis.Entry) (now : Nat) : redis.Client :=
  { entries := entries, now := now, faults := fun _ => false, log := [] }

/-- A world whose table holds the row 0 and whose cache holds a copy of it
under `tasks:id:0`. -/
def worldZero : service.World sql.DB :=
  { store := { tasks := [task0], seq := 1, clock := 9, fault := none }
    redis := client (fun k => if k = "tasks:id:0" then some ⟨doc0, 60⟩ else none) 10
    calls := [] }

/-- A world whose table holds the row 1 and whose cache holds a copy of it
under `tasks:id:1`. -/
def worldOne : service.World sql.DB :=
  { store := { tasks := [task1], seq := 2, clock := 9, fault := none }
    redis := client (fun k => if k = "tasks:id:1" then some ⟨doc1, 60⟩ else none) 10
    calls := [] }

/-- A task as the create handler passes it, with a status outside the fixed
vocabulary. -/
def archived : Task :=
  { IDTask := 0, Title := "Archive me", Description := "", Status := "archived",
    Priority := "medium", DueDate := 0, Done := false, CreatedAt := 0, UpdatedAt := 0 }

/-- A task as the create handler passes it, with status `pending`. -/
def pending : Task :=
  { IDTask := 0, Title := "Write spec", Description := "", Status := "pending",
    Priority := "medium", DueDate := 0, Done := false, CreatedAt := 0, UpdatedAt := 0 }

/-- An empty table. -/
def emptyDB : sql.DB := { tasks := [], seq := 1, clock := 9, fault := none }

/-- An empty table and a cache that holds the empty listing under
`tasks:status:archived`. -/
def worldArchived : service.World sql.DB :=
  { store := emptyDB
    redis := client (fun k => if k = "tasks:status:archived" then some ⟨"null", 60⟩ else none) 10
    calls := [] }

/-- An empty table and a cache that holds the empty listing under
`tasks:status:pending` and under `tasks:all`. -/
def worldPending : service.World sql.DB :=
  { store := emptyDB
    redis := client (fun k =>
      if k = "tasks:status:pending" ∨ k = "tasks:all" then some ⟨"null", 60⟩ else none) 10
    calls := [] }

/-- The world `worldPending` with a client whose first five commands fail and
whose later commands are performed. -/
def worldFlaky : service.World sql.DB :=
  { worldPending with redis := { worldPending.redis with faults := fun n => decide (n < 5) } }

/-- The table holds row 1, the cache still holds the empty listing under
`tasks:all`, and every command to the cache fails. -/
def worldDown : service.World sql.DB :=
  { store := { tasks := [task1], seq := 2, clock := 9, fault := none }
    redis := { worldPending.redis with faults := fun _ => true }
    calls := [] }

/-- The table with row 1 only. -/
def oneRowDB : sql.DB := { tasks := [task1], seq := 2, clock := 9, fault := none }

/-- The table after row 0 was inserted into `oneRowDB` by another program. -/
def twoRowDB : sql.DB := { tasks := [task1, task0], seq := 2, clock := 12, fault := none }

/-- The table holds row 1, the cache is empty and performs every command. -/
def worldCold : service.World sql.DB :=
  { store := oneRowDB, redis := client (fun _ => none) 10, calls := [] }

/-- The world `worldCold` with a client whose second command fails. -/
def worldLostSet : service.World sql.DB :=
  { worldCold with redis := { worldCold.redis with faults := fun n => decide (n = 1) } }

/-- The world `worldCold` with a client whose third command fails. -/
def worldLostGet : service.World sql.DB :=
  { worldCold with redis := { worldCold.redis with faults := fun n => decide (n = 2) } }

/-- The world `v` some seconds later, after row 0 was inserted into the table
by another program. -/
def later (v : service.World sql.DB) (seconds : Nat) : service.World sql.DB :=
  { store := twoRowDB, redis := { v.redis with now := v.redis.now + seconds }, calls := v.calls }

/-- The error of a broken database connection. -/
def refused : Err := Err.failure "dial tcp: connection refused"

/-- The table holds row 1 but the connection is broken; the cache holds a copy
of row 1 under `tasks:id:1` and nothing else. -/
def worldBroken : service.World sql.DB :=
  { store := { oneRowDB with fault := some refused }
    redis := worldOne.redis
    calls := [] }

/-- A decoded request body whose title is two spaces. -/
def blank : Task :=
  { IDTask := 0, Title := "  ", Description := "", Status := "", Priority := "",
    DueDate := 0, Done := false, CreatedAt := 0, UpdatedAt := 0 }

def docBlank : String := "\x7b\"title\":\"  \"\x7d"

/-- A decoded request body with a title and nothing else. -/
def titled : Task :=
  { IDTask := 0, Title := "Write spec", Description := "", Status := "", Priority := "",
    DueDate := 0, Done := false, CreatedAt := 0, UpdatedAt := 0 }

def docTitled : String := "\x7b\"title\":\"Write spec\"\x7d"

/-- The handler of the examples, over the example service. -/
def taskHandler : handler.TaskHandler (service.World sql.DB) :=
  { service := service.NewTaskService svc
    json := tableJSON [(docBlank, blank), (docTitled, titled)] [] }

/-- The state of the handler before the first request. -/
def served : handler.Served (service.World sql.DB) := { world := worldCold, calls := [] }

end sample

set_option maxRecDepth 20000

/-! ## Redis commands -/

namespace redis

theorem Get_snd (r : Client) (key : String) :
    (r.Get key).2 = { r with log := r.log ++ [Cmd.Get key] } := by
  unfold Client.Get
  by_cases hf : r.failing = true
  · simp [hf]
  · cases he : r.entries key with
    | none => simp [hf]
    | some e => by_cases hlt : r.now < e.expiresAt <;> simp [hf, hlt]

theorem Get_fst_of_failing (r : Client) (key : String) (hf : r.failing = true) :
    (r.Get key).1 = none := by
  simp [Client.Get, hf]

theorem Get_fst_of_absent (r : Client) (key : String) (ha : r.entries key = none) :
    (r.Get key).1 = none := by
  unfold Client.Get
  by_cases hf : r.failing = true <;> simp [hf, ha]

theorem Get_fst_of_performed (r : Client) (key : String) (hf : r.failing = false) :
    (r.Get key).1 = r.live key := by
  unfold Client.Get Client.live
  cases he : r.entries key with
  | none => simp [hf]
  | some e => by_cases hlt : r.now < e.expiresAt <;> simp [hf, hlt]

theorem SetEx_log (r : Client) (key value : String) (ttl : Nat) :
    (r.SetEx key value ttl).log = r.log ++ [Cmd.SetEx key value ttl] := by
  unfold Client.SetEx; by_cases hf : r.failing = true <;> simp [hf]

theorem SetEx_entries_other (r : Client) (key value : String) (ttl : Nat) (k : String)
    (hk : k ≠ key) : (r.SetEx key value ttl).entries k = r.entries k := by
  unfold Client.SetEx; by_cases hf : r.failing = true <;> simp [hf, hk]

theorem SetEx_entries_of_failing (r : Client) (key value : String) (ttl : Nat)
    (hf : r.failing = true) : (r.SetEx key value ttl).entries = r.entries := by
  simp [Client.SetEx, hf]

theorem SetEx_entries_of_performed (r : Client) (key value : String) (ttl : Nat)
    (hf : r.failing = false) :
    (r.SetEx key value ttl).entries key = some ⟨value, r.now + ttl⟩ := by
  simp [Client.SetEx, hf]

theorem Del_log (r : Client) (key : String) : (r.Del key).log = r.log ++ [Cmd.Del key] := by
  unfold Client.Del; by_cases hf : r.failing = true <;> simp [hf]

theorem Del_faults (r : Client) (key : String) : (r.Del key).faults = r.faults := by
  unfold Client.Del; by_cases hf : r.failing = true <;> simp [hf]

theorem Del_entries_other (r : Client) (key k : String) (hk : k ≠ key) :
    (r.Del key).entries k = r.entries k := by
  unfold Client.Del; by_cases hf : r.failing = true <;> simp [hf, hk]

theorem Del_entries_of_failing (r : Client) (key : String) (hf : r.failing = true) :
    (r.Del key).entries = r.entries := by
  simp [Client.Del, hf]

theorem Del_entries_of_performed (r : Client) (key : String) (hf : r.failing = false) :
    (r.Del key).entries key = none := by
  simp [Client.Del, hf]

theorem Del_entries_none_or (r : Client) (key k : String) :
    (r.Del key).entries k = none ∨ (r.Del key).entries k = r.entries k := by
  unfold Client.Del
  by_cases hf : r.failing = true
  · simp [hf]
  · by_cases hk : k = key <;> simp [hf, hk]

theorem DelAll_nil (r : Client) : r.DelAll [] = r := rfl

theorem DelAll_cons (r : Client) (key : String) (keys : List String) :
    r.DelAll (key :: keys) = (r.Del key).DelAll keys := rfl

theorem DelAll_log (r : Client) (keys : List String) :
    (r.DelAll keys).log = r.log ++ keys.map Cmd.Del := by
  induction keys generalizing r with
  | nil => simp [DelAll_nil]
  | cons key keys ih => rw [DelAll_cons, ih, Del_log]; simp

theorem DelAll_entries_other (r : Client) (keys : List String) (k : String)
    (hk : k ∉ keys) : (r.DelAll keys).entries k = r.entries k := by
  induction keys generalizing r with
  | nil => rfl
  | cons key keys ih =>
    rw [DelAll_cons, ih _ (fun h => hk (List.mem_cons_of_mem _ h))]
    exact Del_entries_other r key k (fun h => hk (h ▸ List.mem_cons_self _ _))

theorem DelAll_entries_none_or (r : Client) (keys : List String) (k : String) :
    (r.DelAll keys).entries k = none ∨ (r.DelAll keys).entries k = r.entries k := by
  induction keys generalizing r with
  | nil => exact Or.inr rfl
  | cons key keys ih =>
    rw [DelAll_cons]
    rcases ih (r.Del key) with h | h
    · exact Or.inl h
    · rcases Del_entries_none_or r key k with h2 | h2
      · exact Or.inl (h.trans h2)
      · exact Or.inr (h.trans h2)

theorem DelAll_entries_absent (r : Client) (keys : List String) (k : String)
    (ha : r.entries k = none) : (r.DelAll keys).entries k = none := by
  rcases DelAll_entries_none_or r keys k with h | h
  · exact h
  · rw [h, ha]

theorem DelAll_entries_mem (r : Client) (keys : List String) (k : String)
    (hp : r.performs) (hk : k ∈ keys) : (r.DelAll keys).entries k = none := by
  induction keys generalizing r with
  | nil => cases hk
  | cons key keys ih =>
    rw [DelAll_cons]
    have hp2 : (r.Del key).performs := by
      intro n; rw [Del_faults]; exact hp n
    by_cases hkk : k = key
    · subst hkk
      exact DelAll_entries_absent _ _ _ (Del_entries_of_performed r k (hp _))
    · rcases List.mem_cons.mp hk with h | h
      · exact absurd h hkk
      · exact ih _ hp2 h

theorem DelAll_entries_of_unreachable (r : Client) (keys : List String)
    (hu : r.unreachable) : (r.DelAll keys).entries = r.entries := by
  induction keys generalizing r with
  | nil => rfl
  | cons key keys ih =>
    have hu2 : (r.Del key).unreachable := by
      intro n; rw [Del_faults]; exact hu n
    rw [DelAll_cons, ih _ hu2, Del_entries_of_failing r key (hu _)]

end redis

/-! ## Invalidation -/

namespace service

theorem invalidateCache_eq (r : redis.Client) (id : Int) :
    invalidateCache r id = r.DelAll (invalidated id) := by
  unfold invalidateCache invalidated
  by_cases h : id = 0 <;> simp [h, redis.Client.DelAll]

end service

/-! ## The service operations, case by case -/

namespace service

open repository

variable {σ : Type}

theorem CreateTask_ok (s : taskService σ) (task created : Task) (w w' : World σ)
    (h : CreateTask s task w = (.ok created, w')) :
    (s.repo.Create task w.store).1 = .ok created ∧
    w' = { store := (s.repo.Create task w.store).2, redis := invalidateCache w.redis 0,
           calls := w.calls ++ [Call.Create task] } := by
  unfold CreateTask at h
  cases hr : (s.repo.Create task w.store).1 with
  | error err => simp [hr] at h
  | ok c =>
    simp only [hr, Prod.mk.injEq, Except.ok.injEq] at h
    exact ⟨by rw [h.1], h.2.symm⟩

theorem UpdateTask_ok (s : taskService σ) (task updated : Task) (w w' : World σ)
    (h : UpdateTask s task w = (.ok (some updated), w')) :
    (s.repo.Update task w.store).1 = .ok (some updated) ∧
    w' = { store := (s.repo.Update task w.store).2,
           redis := invalidateCache w.redis task.IDTask,
           calls := w.calls ++ [Call.Update task] } := by
  unfold UpdateTask at h
  cases hr : (s.repo.Update task w.store).1 with
  | error err => simp [hr] at h
  | ok c =>
    cases c with
    | none => simp [hr] at h
    | some u =>
      simp only [hr, Prod.mk.injEq, Except.ok.injEq, Option.some.injEq] at h
      exact ⟨by rw [h.1], h.2.symm⟩

theorem DeleteTask_ok (s : taskService σ) (id : Int) (w w' : World σ)
    (h : DeleteTask s id w = (none, w')) :
    (s.repo.Delete id w.store).1 = none ∧
    w' = { store := (s.repo.Delete id w.store).2, redis := invalidateCache w.redis id,
           calls := w.calls ++ [Call.Delete id] } := by
  unfold DeleteTask at h
  cases hr : (s.repo.Delete id w.store).1 with
  | some err => simp [hr] at h
  | none =>
    simp only [hr, Prod.mk.injEq, true_and] at h
    exact ⟨rfl, h.symm⟩

/-- On a miss `GetAllTasks` asks the repository. -/
theorem GetAllTasks_miss (s : taskService σ) (w : World σ)
    (hm : (w.redis.Get cacheAllTasks).1.bind s.json.UnmarshalTasks = none) :
    GetAllTasks s w =
      match (s.repo.FindAll w.store).1 with
      | .error err =>
        (.error err, { store := (s.repo.FindAll w.store).2, redis := (w.redis.Get cacheAllTasks).2,
                       calls := w.calls ++ [Call.FindAll] })
      | .ok tasks =>
        (.ok tasks,
          { store := (s.repo.FindAll w.store).2,
            redis := (w.redis.Get cacheAllTasks).2.SetEx cacheAllTasks
              ((s.json.MarshalTasks tasks).getD "") cacheTTL,
            calls := w.calls ++ [Call.FindAll] }) := by
  unfold GetAllTasks
  simp only [hm]

/-- On a miss `GetTaskByID` asks the repository. -/
theorem GetTaskByID_miss (s : taskService σ) (id : Int) (w : World σ)
    (hm : (w.redis.Get (cacheTaskByID id)).1.bind s.json.UnmarshalTask = none) :
    GetTaskByID s id w =
      match (s.repo.FindByID id w.store).1 with
      | .error err =>
        (.error err, { store := (s.repo.FindByID id w.store).2,
                       redis := (w.redis.Get (cacheTaskByID id)).2,
                       calls := w.calls ++ [Call.FindByID id] })
      | .ok none =>
        (.ok none, { store := (s.repo.FindByID id w.store).2,
                     redis := (w.redis.Get (cacheTaskByID id)).2,
                     calls := w.calls ++ [Call.FindByID id] })
      | .ok (some task) =>
        (.ok (some task),
          { store := (s.repo.FindByID id w.store).2,
            redis := (w.redis.Get (cacheTaskByID id)).2.SetEx (cacheTaskByID id)
              ((s.json.MarshalTask task).getD "") cacheTTL,
            calls := w.calls ++ [Call.FindByID id] }) := by
  unfold GetTaskByID
  simp only [hm]

/-- On a miss `GetTaskByStatus` asks the repository. -/
theorem GetTaskByStatus_miss (s : taskService σ) (status : String) (w : World σ)
    (hm : (w.redis.Get (cacheTaskStatus status)).1.bind s.json.UnmarshalTasks = none) :
    GetTaskByStatus s status w =
      match (s.repo.FindByStatus status w.store).1 with
      | .error err =>
        (.error err, { store := (s.repo.FindByStatus status w.store).2,
                       redis := (w.redis.Get (cacheTaskStatus status)).2,
                       calls := w.calls ++ [Call.FindByStatus status] })
      | .ok tasks =>
        (.ok tasks,
          { store := (s.repo.FindByStatus status w.store).2,
            redis := (w.redis.Get (cacheTaskStatus status)).2.SetEx (cacheTaskStatus status)
              ((s.json.MarshalTasks tasks).getD "") cacheTTL,
            calls := w.calls ++ [Call.FindByStatus status] }) := by
  unfold GetTaskByStatus
  simp only [hm]

theorem GetAllTasks_miss_fst (s : taskService σ) (w : World σ)
    (hm : (w.redis.Get cacheAllTasks).1.bind s.json.UnmarshalTasks = none) :
    (GetAllTasks s w).1 = (s.repo.FindAll w.store).1 ∧
    (GetAllTasks s w).2.store = (s.repo.FindAll w.store).2 ∧
    (GetAllTasks s w).2.calls = w.calls ++ [Call.FindAll] := by
  rw [GetAllTasks_miss s w hm]
  cases hr : (s.repo.FindAll w.store).1 <;> simp [hr]

theorem GetTaskByID_miss_fst (s : taskService σ) (id : Int) (w : World σ)
    (hm : (w.redis.Get (cacheTaskByID id)).1.bind s.json.UnmarshalTask = none) :
    (GetTaskByID s id w).1 = (s.repo.FindByID id w.store).1 ∧
    (GetTaskByID s id w).2.store = (s.repo.FindByID id w.store).2 ∧
    (GetTaskByID s id w).2.calls = w.calls ++ [Call.FindByID id] := by
  rw [GetTaskByID_miss s id w hm]
  cases hr : (s.repo.FindByID id w.store).1 with
  | error err => simp [hr]
  | ok t => cases t <;> simp [hr]

theorem GetTaskByStatus_miss_fst (s : taskService σ) (status : String) (w : World σ)
    (hm : (w.redis.Get (cacheTaskStatus status)).1.bind s.json.UnmarshalTasks = none) :
    (GetTaskByStatus s status w).1 = (s.repo.FindByStatus status w.store).1 ∧
    (GetTaskByStatus s status w).2.store = (s.repo.FindByStatus status w.store).2 ∧
    (GetTaskByStatus s status w).2.calls = w.calls ++ [Call.FindByStatus status] := by
  rw [GetTaskByStatus_miss s status w hm]
  cases hr : (s.repo.FindByStatus status w.store).1 <;> simp [hr]

end service

/-! ## The SQL repository -/

namespace repository

theorem FindByID_after_Update (task updated : Task) (db : sql.DB)
    (h : (Update task db).1 = .ok (some updated)) :
    (FindByID task.IDTask (Update task db).2).1 = .ok (some updated) := by
  unfold Update at h ⊢
  unfold FindByID
  cases hf : db.fault with
  | some err => simp [hf] at h
  | none =>
    simp only [hf] at h ⊢
    exact h

theorem FindByID_after_Delete (id : Int) (db : sql.DB) (h : (Delete id db).1 = none) :
    (FindByID id (Delete id db).2).1 = .ok none := by
  unfold Delete at h ⊢
  unfold FindByID
  cases hf : db.fault with
  | some err => simp [hf] at h
  | none =>
    by_cases h0 : (db.tasks.filter (fun t => t.IDTask = id)).length = 0
    · simp [hf, h0] at h
    · simp only [hf, h0, if_false]
      congr 1
      rw [List.find?_eq_none]
      intro x hx
      simp only [List.mem_filter] at hx
      simpa using hx.2

end repository

/-! ## C1: the identifier key after an update or a delete -/

namespace service

open repository

/-- C1, refuted at identifier 0: against a client that performs every command,
`DeleteTask 0` succeeds, yet the cache still holds the entry under `tasks:id:0`
and the next `GetTaskByID 0` returns that earlier copy although the store now
answers not found. -/
theorem delete_zero_keeps_id_key :
    sample.worldZero.redis.performs ∧
    (DeleteTask sample.svc 0 sample.worldZero).1 = none ∧
    (DeleteTask sample.svc 0 sample.worldZero).2.redis.entries (cacheTaskByID 0)
      = some ⟨sample.doc0, 60⟩ ∧
    (GetTaskByID sample.svc 0 (DeleteTask sample.svc 0 sample.worldZero).2).1
      = .ok (some sample.task0) ∧
    (sample.svc.repo.FindByID 0 (DeleteTask sample.svc 0 sample.worldZero).2.store).1
      = .ok none := by
  refine ⟨fun _ => rfl, by decide, by decide, by decide, by decide⟩

/-- C1 (amended): for every identifier `N` other than 0 and every prior cache
content, after `UpdateTask` (of a task with identifier `N`, returning the
updated record) or `DeleteTask N` succeeds against a client that performs its
commands, the cache holds no entry under `tasks:id:N`, and the next
`GetTaskByID N` returns what `FindByID N` returns on the store as it is now,
after exactly one repository call; with the SQL repository that is the updated
record after an update and not found after a delete. -/
theorem id_key_invalidated {σ : Type} (s : taskService σ) (w w' : World σ) (N : Int)
    (hN : N ≠ 0) (hp : w.redis.performs)
    (hop : (∃ task updated, task.IDTask = N ∧
              UpdateTask s task w = (.ok (some updated), w')) ∨
           DeleteTask s N w = (none, w')) :
    w'.redis.entries (cacheTaskByID N) = none ∧
    (GetTaskByID s N w').1 = (s.repo.FindByID N w'.store).1 ∧
    (GetTaskByID s N w').2.calls = w'.calls ++ [Call.FindByID N] ∧
    (∀ (db : sql.DB) (task updated : Task), task.IDTask = N →
      (repository.Update task db).1 = .ok (some updated) →
      (repository.FindByID N (repository.Update task db).2).1 = .ok (some updated)) ∧
    (∀ db : sql.DB, (repository.Delete N db).1 = none →
      (repository.FindByID N (repository.Delete N db).2).1 = .ok none) := by
  have hr : w'.redis = invalidateCache w.redis N := by
    rcases hop with ⟨task, updated, hid, h⟩ | h
    · rw [(UpdateTask_ok s task updated w w' h).2, hid]
    · rw [(DeleteTask_ok s N w w' h).2]
  have hmem : cacheTaskByID N ∈ invalidated N := by
    simp [invalidated, hN]
  have habs : w'.redis.entries (cacheTaskByID N) = none := by
    rw [hr, invalidateCache_eq]
    exact redis.DelAll_entries_mem _ _ _ hp hmem
  have hm : (w'.redis.Get (cacheTaskByID N)).1.bind s.json.UnmarshalTask = none := by
    rw [redis.Get_fst_of_absent _ _ habs]; rfl
  have hg := GetTaskByID_miss_fst s N w' hm
  refine ⟨habs, hg.1, hg.2.2, ?_, ?_⟩
  · intro db task updated hid h
    subst hid
    exact repository.FindByID_after_Update task updated db h
  · intro db h
    exact repository.FindByID_after_Delete N db h

/-- C1 (amended) at identifier 1: after `DeleteTask 1` on a world whose cache
held a copy of row 1, the key is gone and `GetTaskByID 1` answers not found. -/
theorem id_key_invalidated_at_one :
    (1 : Int) ≠ 0 ∧ sample.worldOne.redis.performs ∧
    (DeleteTask sample.svc 1 sample.worldOne).1 = none ∧
    (DeleteTask sample.svc 1 sample.worldOne).2.redis.entries (cacheTaskByID 1) = none ∧
    (GetTaskByID sample.svc 1 (DeleteTask sample.svc 1 sample.worldOne).2).1 = .ok none :=
  have h := id_key_invalidated sample.svc sample.worldOne
    (DeleteTask sample.svc 1 sample.worldOne).2 1 (by decide) (fun _ => rfl)
    (Or.inr (Prod.ext (by decide) rfl))
  ⟨by decide, fun _ => rfl, by decide, h.1,
    h.2.1.trans (h.2.2.2.2 sample.worldOne.store (by decide))⟩

end service

/-! ## C2: the status keys after a write -/

namespace service

open repository

theorem wrote_redis {σ : Type} (s : taskService σ) (w w' : World σ) (h : wrote s w w') :
    ∃ id, w'.redis = invalidateCache w.redis id := by
  rcases h with ⟨task, created, h⟩ | ⟨task, updated, h⟩ | ⟨id, h⟩
  · exact ⟨0, by rw [(CreateTask_ok s task created w w' h).2]⟩
  · exact ⟨task.IDTask, by rw [(UpdateTask_ok s task updated w w' h).2]⟩
  · exact ⟨id, by rw [(DeleteTask_ok s id w w' h).2]⟩

/-- C2, refuted: (1) against a client that performs every command, after a
successful `CreateTask` of a task with status `archived` the entry under
`tasks:status:archived` is still there, and the next `GetTaskByStatus` returns
the empty listing cached before the write while the store holds the new row;
(2) when the `DEL` commands of the write fail, the entry under
`tasks:status:pending` survives as well and is served by the next read. -/
theorem status_key_survives_write :
    (sample.worldArchived.redis.performs ∧
      (∃ created, (CreateTask sample.svc sample.archived sample.worldArchived).1
        = .ok created) ∧
      (CreateTask sample.svc sample.archived sample.worldArchived).2.redis.entries
        (cacheTaskStatus "archived") = some ⟨"null", 60⟩ ∧
      (GetTaskByStatus sample.svc "archived"
        (CreateTask sample.svc sample.archived sample.worldArchived).2).1 = .ok [] ∧
      (sample.svc.repo.FindByStatus "archived"
        (CreateTask sample.svc sample.archived sample.worldArchived).2.store).1
        = .ok [{ sample.archived with IDTask := 1, CreatedAt := 9, UpdatedAt := 9 }]) ∧
    ((∃ created, (CreateTask sample.svc sample.pending sample.worldFlaky).1 = .ok created) ∧
      (CreateTask sample.svc sample.pending sample.worldFlaky).2.redis.entries
        (cacheTaskStatus "pending") = some ⟨"null", 60⟩ ∧
      (GetTaskByStatus sample.svc "pending"
        (CreateTask sample.svc sample.pending sample.worldFlaky).2).1 = .ok [] ∧
      (sample.svc.repo.FindByStatus "pending"
        (CreateTask sample.svc sample.pending sample.worldFlaky).2.store).1
        = .ok [{ sample.pending with IDTask := 1, CreatedAt := 9, UpdatedAt := 9 }]) := by
  refine ⟨⟨fun _ => rfl, ⟨_, rfl⟩, by decide, by decide, by decide⟩,
    ⟨_, rfl⟩, by decide, by decide, by decide⟩

/-- C2 (amended): for each status `S` of the fixed vocabulary (pending,
in_progress, done, cancelled) and every prior cache content, after a successful
`CreateTask`, `UpdateTask` or `DeleteTask` against a client that performs its
commands the cache holds no entry under `tasks:status:S`, and the next
`GetTaskByStatus S` returns what `FindByStatus S` returns on the store as it
is now, after exactly one repository call; with the SQL repository those are
the rows whose status is `S`. -/
theorem status_key_invalidated {σ : Type} (s : taskService σ) (w w' : World σ) (S : String)
    (hS : S = "pending" ∨ S = "in_progress" ∨ S = "done" ∨ S = "cancelled")
    (hp : w.redis.performs) (hw : wrote s w w') :
    w'.redis.entries (cacheTaskStatus S) = none ∧
    (GetTaskByStatus s S w').1 = (s.repo.FindByStatus S w'.store).1 ∧
    (GetTaskByStatus s S w').2.calls = w'.calls ++ [Call.FindByStatus S] ∧
    (∀ (db : sql.DB) (rows : List Task), (repository.FindByStatus S db).1 = .ok rows →
      ∀ t, t ∈ rows ↔ (t ∈ db.tasks ∧ t.Status = S)) := by
  obtain ⟨id, hr⟩ := wrote_redis s w w' hw
  have hmem : cacheTaskStatus S ∈ invalidated id := by
    rcases hS with h | h | h | h <;> subst h <;> simp [invalidated]
  have habs : w'.redis.entries (cacheTaskStatus S) = none := by
    rw [hr, invalidateCache_eq]
    exact redis.DelAll_entries_mem _ _ _ hp hmem
  have hm : (w'.redis.Get (cacheTaskStatus S)).1.bind s.json.UnmarshalTasks = none := by
    rw [redis.Get_fst_of_absent _ _ habs]; rfl
  have hg := GetTaskByStatus_miss_fst s S w' hm
  refine ⟨habs, hg.1, hg.2.2, ?_⟩
  intro db rows h t
  unfold repository.FindByStatus at h
  cases hf : db.fault with
  | some err => simp [hf] at h
  | none =>
    simp only [hf, Except.ok.injEq] at h
    subst h
    unfold sql.orderByCreatedAtDesc
    rw [(List.perm_insertionSort _ _).mem_iff]
    simp [List.mem_filter]

/-- C2 (amended) at status `pending`: a successful `CreateTask` removes the
cached listing and the next `GetTaskByStatus` returns the new row. -/
theorem status_key_invalidated_at_pending :
    sample.worldPending.redis.performs ∧
    wrote sample.svc sample.worldPending
      (CreateTask sample.svc sample.pending sample.worldPending).2 ∧
    (CreateTask sample.svc sample.pending sample.worldPending).2.redis.entries
      (cacheTaskStatus "pending") = none ∧
    (GetTaskByStatus sample.svc "pending"
      (CreateTask sample.svc sample.pending sample.worldPending).2).1
      = .ok [{ sample.pending with IDTask := 1, CreatedAt := 9, UpdatedAt := 9 }] :=
  have hw : wrote sample.svc sample.worldPending
      (CreateTask sample.svc sample.pending sample.worldPending).2 :=
    Or.inl ⟨sample.pending, _, rfl⟩
  have h := status_key_invalidated sample.svc sample.worldPending _ "pending"
    (Or.inl rfl) (fun _ => rfl) hw
  ⟨fun _ => rfl, hw, h.1, h.2.1.trans (by decide)⟩

end service

/-! ## C3: the listing of all tasks after a write -/

namespace service

open repository

/-- C3: for every store state and every prior cache content, after a
successful `CreateTask`, `UpdateTask` or `DeleteTask` against a client that
performs its commands, the cache holds no entry under `tasks:all`, and the next
`GetAllTasks` (whatever happened to the store and the clock meanwhile, the
cache entries being those the write left) returns what `FindAll` returns on
the current store, after exactly one repository call. -/
theorem list_all_fresh_after_write {σ : Type} (s : taskService σ) (w w' : World σ)
    (hp : w.redis.performs) (hw : wrote s w w') :
    w'.redis.entries cacheAllTasks = none ∧
    ∀ v : World σ, v.redis.entries = w'.redis.entries →
      (GetAllTasks s v).1 = (s.repo.FindAll v.store).1 ∧
      (GetAllTasks s v).2.calls = v.calls ++ [Call.FindAll] := by
  obtain ⟨id, hr⟩ := wrote_redis s w w' hw
  have habs : w'.redis.entries cacheAllTasks = none := by
    rw [hr, invalidateCache_eq]
    exact redis.DelAll_entries_mem _ _ _ hp (by simp [invalidated])
  refine ⟨habs, ?_⟩
  intro v hv
  have hm : (v.redis.Get cacheAllTasks).1.bind s.json.UnmarshalTasks = none := by
    rw [redis.Get_fst_of_absent _ _ (by rw [hv]; exact habs)]; rfl
  have hg := GetAllTasks_miss_fst s v hm
  exact ⟨hg.1, hg.2.2⟩

/-- C3 on an example: the cache held the empty listing under `tasks:all`; after
`CreateTask` the next `GetAllTasks` returns the new row. -/
theorem list_all_fresh_after_create :
    sample.worldPending.redis.performs ∧
    sample.worldPending.redis.entries cacheAllTasks = some ⟨"null", 60⟩ ∧
    wrote sample.svc sample.worldPending
      (CreateTask sample.svc sample.pending sample.worldPending).2 ∧
    (CreateTask sample.svc sample.pending sample.worldPending).2.redis.entries cacheAllTasks
      = none ∧
    (GetAllTasks sample.svc (CreateTask sample.svc sample.pending sample.worldPending).2).1
      = .ok [{ sample.pending with IDTask := 1, CreatedAt := 9, UpdatedAt := 9 }] :=
  have hw : wrote sample.svc sample.worldPending
      (CreateTask sample.svc sample.pending sample.worldPending).2 :=
    Or.inl ⟨sample.pending, _, rfl⟩
  have h := list_all_fresh_after_write sample.svc sample.worldPending _ (fun _ => rfl) hw
  ⟨fun _ => rfl, by decide, hw, h.1, ((h.2 _ rfl).1).trans (by decide)⟩

end service

/-! ## C4: what the invalidation touches -/

namespace service

open repository

theorem invalidated_mem (id : Int) (k : String) :
    k ∈ invalidated id ↔
      (k = "tasks:all" ∨ k = "tasks:status:pending" ∨ k = "tasks:status:in_progress" ∨
       k = "tasks:status:done" ∨ k = "tasks:status:cancelled" ∨
       (id ≠ 0 ∧ k = cacheTaskByID id)) := by
  have e0 : cacheAllTasks = "tasks:all" := rfl
  have e1 : cacheTaskStatus "pending" = "tasks:status:pending" := by decide
  have e2 : cacheTaskStatus "in_progress" = "tasks:status:in_progress" := by decide
  have e3 : cacheTaskStatus "done" = "tasks:status:done" := by decide
  have e4 : cacheTaskStatus "cancelled" = "tasks:status:cancelled" := by decide
  unfold invalidated
  rw [e0, e1, e2, e3, e4]
  by_cases h : id = 0
  · simp [h]
  · simp only [h, ne_eq, not_false_eq_true, if_true, List.mem_append, List.mem_cons,
      List.mem_singleton, List.not_mem_nil, or_false, true_and]
    tauto

theorem write_ignores_faults {σ : Type} (s : taskService σ) (w : World σ) (f : Nat → Bool) :
    (∀ task, (CreateTask s task { w with redis := { w.redis with faults := f } }).1
        = (CreateTask s task w).1 ∧
      (CreateTask s task { w with redis := { w.redis with faults := f } }).2.store
        = (CreateTask s task w).2.store) ∧
    (∀ task, (UpdateTask s task { w with redis := { w.redis with faults := f } }).1
        = (UpdateTask s task w).1 ∧
      (UpdateTask s task { w with redis := { w.redis with faults := f } }).2.store
        = (UpdateTask s task w).2.store) ∧
    (∀ id, (DeleteTask s id { w with redis := { w.redis with faults := f } }).1
        = (DeleteTask s id w).1 ∧
      (DeleteTask s id { w with redis := { w.redis with faults := f } }).2.store
        = (DeleteTask s id w).2.store) := by
  refine ⟨?_, ?_, ?_⟩
  · intro task
    unfold CreateTask
    cases hr : (s.repo.Create task w.store).1 <;> simp [hr]
  · intro task
    unfold UpdateTask
    cases hr : (s.repo.Update task w.store).1 with
    | error err => simp [hr]
    | ok t => cases t <;> simp [hr]
  · intro id
    unfold DeleteTask
    cases hr : (s.repo.Delete id w.store).1 <;> simp [hr]

/-- C4, refuted at identifier 0: `DeleteTask 0` succeeds and sends `DEL` for
`tasks:all` and the four status keys only; no `DEL` goes to `tasks:id:0`, whose
entry keeps its value although the identifier of the delete is known. -/
theorem delete_zero_sends_no_id_del :
    (DeleteTask sample.svc 0 sample.worldZero).1 = none ∧
    (DeleteTask sample.svc 0 sample.worldZero).2.redis.log =
      [redis.Cmd.Del "tasks:all", redis.Cmd.Del "tasks:status:pending",
       redis.Cmd.Del "tasks:status:in_progress", redis.Cmd.Del "tasks:status:done",
       redis.Cmd.Del "tasks:status:cancelled"] ∧
    redis.Cmd.Del "tasks:id:0" ∉ (DeleteTask sample.svc 0 sample.worldZero).2.redis.log ∧
    (DeleteTask sample.svc 0 sample.worldZero).2.redis.entries "tasks:id:0"
      = sample.worldZero.redis.entries "tasks:id:0" ∧
    sample.worldZero.redis.entries "tasks:id:0" ≠ none := by
  refine ⟨by decide, by decide, by decide, by decide, by decide⟩

/-- C4 (amended): a successful write with identifier argument `id` (0 for
`CreateTask`, the identifier of the task for `UpdateTask`, the given identifier
for `DeleteTask`) sends exactly the commands `DEL` for `tasks:all`, for
`tasks:id:<id>` when `id` is not 0, and for the four status keys of the fixed
vocabulary, and no other command; every other key keeps its value, every key
keeps its value or loses its entry (none is written), a client that performs
its commands ends with no entry under the listed keys, and the result of the
write and the store it leaves are the same whichever commands fail. -/
theorem invalidation_frame {σ : Type} (s : taskService σ) (w w' : World σ) (id : Int)
    (hop : (id = 0 ∧ ∃ task created, CreateTask s task w = (.ok created, w')) ∨
           (∃ task updated, task.IDTask = id ∧
              UpdateTask s task w = (.ok (some updated), w')) ∨
           DeleteTask s id w = (none, w')) :
    w'.redis.log = w.redis.log ++ (invalidated id).map redis.Cmd.Del ∧
    (∀ k, k ∈ invalidated id ↔
      (k = "tasks:all" ∨ k = "tasks:status:pending" ∨ k = "tasks:status:in_progress" ∨
       k = "tasks:status:done" ∨ k = "tasks:status:cancelled" ∨
       (id ≠ 0 ∧ k = cacheTaskByID id))) ∧
    (∀ k, k ∉ invalidated id → w'.redis.entries k = w.redis.entries k) ∧
    (∀ k, w'.redis.entries k = none ∨ w'.redis.entries k = w.redis.entries k) ∧
    (w.redis.performs → ∀ k, k ∈ invalidated id → w'.redis.entries k = none) ∧
    (∀ f : Nat → Bool,
      (∀ task, (CreateTask s task { w with redis := { w.redis with faults := f } }).1
          = (CreateTask s task w).1 ∧
        (CreateTask s task { w with redis := { w.redis with faults := f } }).2.store
          = (CreateTask s task w).2.store) ∧
      (∀ task, (UpdateTask s task { w with redis := { w.redis with faults := f } }).1
          = (UpdateTask s task w).1 ∧
        (UpdateTask s task { w with redis := { w.redis with faults := f } }).2.store
          = (UpdateTask s task w).2.store) ∧
      (∀ id2, (DeleteTask s id2 { w with redis := { w.redis with faults := f } }).1
          = (DeleteTask s id2 w).1 ∧
        (DeleteTask s id2 { w with redis := { w.redis with faults := f } }).2.store
          = (DeleteTask s id2 w).2.store)) := by
  have hr : w'.redis = w.redis.DelAll (invalidated id) := by
    rw [← invalidateCache_eq]
    rcases hop with ⟨h0, task, created, h⟩ | ⟨task, updated, hid, h⟩ | h
    · rw [(CreateTask_ok s task created w w' h).2, h0]
    · rw [(UpdateTask_ok s task updated w w' h).2, hid]
    · rw [(DeleteTask_ok s id w w' h).2]
  refine ⟨?_, invalidated_mem id, ?_, ?_, ?_, write_ignores_faults s w⟩
  · rw [hr, redis.DelAll_log]
  · intro k hk
    rw [hr]; exact redis.DelAll_entries_other _ _ _ hk
  · intro k
    rw [hr]; exact redis.DelAll_entries_none_or _ _ _
  · intro hp k hk
    rw [hr]; exact redis.DelAll_entries_mem _ _ _ hp hk

/-- C4 (amended) on an example: `DeleteTask 1` sends six `DEL` commands, the
second of them for `tasks:id:1`, and the entry under that key is gone. -/
theorem invalidation_frame_at_one :
    (DeleteTask sample.svc 1 sample.worldOne).1 = none ∧
    (DeleteTask sample.svc 1 sample.worldOne).2.redis.log =
      [redis.Cmd.Del "tasks:all", redis.Cmd.Del "tasks:id:1",
       redis.Cmd.Del "tasks:status:pending", redis.Cmd.Del "tasks:status:in_progress",
       redis.Cmd.Del "tasks:status:done", redis.Cmd.Del "tasks:status:cancelled"] ∧
    (DeleteTask sample.svc 1 sample.worldOne).2.redis.entries "tasks:id:1" = none :=
  have h := invalidation_frame sample.svc sample.worldOne
    (DeleteTask sample.svc 1 sample.worldOne).2 1
    (Or.inr (Or.inr (Prod.ext (by decide) rfl)))
  ⟨by decide, h.1.trans (by decide),
    h.2.2.2.2.1 (fun _ => rfl) "tasks:id:1" ((h.2.1 "tasks:id:1").mpr (by decide))⟩

end service

/-! ## C5: the service with an unreachable cache -/

namespace service

open repository

theorem CreateTask_direct {σ : Type} (s : taskService σ) (task : Task) (w : World σ) :
    (CreateTask s task w).1 = (s.repo.Create task w.store).1 ∧
    (CreateTask s task w).2.store = (s.repo.Create task w.store).2 ∧
    (CreateTask s task w).2.calls = w.calls ++ [Call.Create task] := by
  unfold CreateTask
  cases hr : (s.repo.Create task w.store).1 <;> simp [hr]

theorem UpdateTask_direct {σ : Type} (s : taskService σ) (task : Task) (w : World σ) :
    (UpdateTask s task w).1 = (s.repo.Update task w.store).1 ∧
    (UpdateTask s task w).2.store = (s.repo.Update task w.store).2 ∧
    (UpdateTask s task w).2.calls = w.calls ++ [Call.Update task] := by
  unfold UpdateTask
  cases hr : (s.repo.Update task w.store).1 with
  | error err => simp [hr]
  | ok t => cases t <;> simp [hr]

theorem DeleteTask_direct {σ : Type} (s : taskService σ) (id : Int) (w : World σ) :
    (DeleteTask s id w).1 = (s.repo.Delete id w.store).1 ∧
    (DeleteTask s id w).2.store = (s.repo.Delete id w.store).2 ∧
    (DeleteTask s id w).2.calls = w.calls ++ [Call.Delete id] := by
  unfold DeleteTask
  cases hr : (s.repo.Delete id w.store).1 <;> simp [hr]

theorem Get_entries_unreachable (r : redis.Client) (key data : String) (ttl : Nat)
    (hu : r.unreachable) :
    (r.Get key).2.entries = r.entries ∧
    ((r.Get key).2.SetEx key data ttl).entries = r.entries := by
  have hf : (r.Get key).2.failing = true := by
    rw [redis.Get_snd]; exact hu _
  rw [redis.SetEx_entries_of_failing _ _ _ _ hf, redis.Get_snd]
  exact ⟨rfl, rfl⟩

theorem invalidateCache_entries_unreachable (r : redis.Client) (id : Int)
    (hu : r.unreachable) : (invalidateCache r id).entries = r.entries := by
  rw [invalidateCache_eq]
  exact redis.DelAll_entries_of_unreachable r _ hu

theorem entries_unreachable {σ : Type} (s : taskService σ) (w : World σ)
    (hu : w.redis.unreachable) :
    (GetAllTasks s w).2.redis.entries = w.redis.entries ∧
    (∀ id, (GetTaskByID s id w).2.redis.entries = w.redis.entries) ∧
    (∀ status, (GetTaskByStatus s status w).2.redis.entries = w.redis.entries) ∧
    (∀ task, (CreateTask s task w).2.redis.entries = w.redis.entries) ∧
    (∀ task, (UpdateTask s task w).2.redis.entries = w.redis.entries) ∧
    (∀ id, (DeleteTask s id w).2.redis.entries = w.redis.entries) := by
  have hf : w.redis.failing = true := hu _
  refine ⟨?_, ?_, ?_, ?_, ?_, ?_⟩
  · rw [GetAllTasks_miss s w (by rw [redis.Get_fst_of_failing _ _ hf]; rfl)]
    cases hr : (s.repo.FindAll w.store).1 with
    | error err => exact (Get_entries_unreachable w.redis _ "" 0 hu).1
    | ok tasks => exact (Get_entries_unreachable w.redis _ _ _ hu).2
  · intro id
    rw [GetTaskByID_miss s id w (by rw [redis.Get_fst_of_failing _ _ hf]; rfl)]
    cases hr : (s.repo.FindByID id w.store).1 with
    | error err => exact (Get_entries_unreachable w.redis _ "" 0 hu).1
    | ok t =>
      cases t with
      | none => exact (Get_entries_unreachable w.redis _ "" 0 hu).1
      | some task => exact (Get_entries_unreachable w.redis _ _ _ hu).2
  · intro status
    rw [GetTaskByStatus_miss s status w (by rw [redis.Get_fst_of_failing _ _ hf]; rfl)]
    cases hr : (s.repo.FindByStatus status w.store).1 with
    | error err => exact (Get_entries_unreachable w.redis _ "" 0 hu).1
    | ok tasks => exact (Get_entries_unreachable w.redis _ _ _ hu).2
  · intro task
    unfold CreateTask
    cases hr : (s.repo.Create task w.store).1 with
    | error err => simp only [hr]
    | ok created => simp only [hr]; exact invalidateCache_entries_unreachable _ _ hu
  · intro task
    unfold UpdateTask
    cases hr : (s.repo.Update task w.store).1 with
    | error err => simp only [hr]
    | ok t =>
      cases t with
      | none => simp only [hr]
      | some updated => simp only [hr]; exact invalidateCache_entries_unreachable _ _ hu
  · intro id
    unfold DeleteTask
    cases hr : (s.repo.Delete id w.store).1 with
    | some err => simp only [hr]
    | none => simp only [hr]; exact invalidateCache_entries_unreachable _ _ hu

/-- C5: when every cache command fails, each of `GetAllTasks`, `GetTaskByID`,
`GetTaskByStatus`, `CreateTask`, `UpdateTask` and `DeleteTask` returns exactly
the value and error that `FindAll`, `FindByID`, `FindByStatus`, `Create`,
`Update`, `Delete` returns for the same arguments on the same store, leaves the
store that call leaves, adds exactly that one call to the record of repository
calls, and leaves the cache entries as they were. -/
theorem unreachable_cache_is_store_direct {σ : Type} (s : taskService σ) (w : World σ)
    (hu : w.redis.unreachable) :
    ((GetAllTasks s w).1 = (s.repo.FindAll w.store).1 ∧
      (GetAllTasks s w).2.store = (s.repo.FindAll w.store).2 ∧
      (GetAllTasks s w).2.calls = w.calls ++ [Call.FindAll] ∧
      (GetAllTasks s w).2.redis.entries = w.redis.entries) ∧
    (∀ id, (GetTaskByID s id w).1 = (s.repo.FindByID id w.store).1 ∧
      (GetTaskByID s id w).2.store = (s.repo.FindByID id w.store).2 ∧
      (GetTaskByID s id w).2.calls = w.calls ++ [Call.FindByID id] ∧
      (GetTaskByID s id w).2.redis.entries = w.redis.entries) ∧
    (∀ status, (GetTaskByStatus s status w).1 = (s.repo.FindByStatus status w.store).1 ∧
      (GetTaskByStatus s status w).2.store = (s.repo.FindByStatus status w.store).2 ∧
      (GetTaskByStatus s status w).2.calls = w.calls ++ [Call.FindByStatus status] ∧
      (GetTaskByStatus s status w).2.redis.entries = w.redis.entries) ∧
    (∀ task, (CreateTask s task w).1 = (s.repo.Create task w.store).1 ∧
      (CreateTask s task w).2.store = (s.repo.Create task w.store).2 ∧
      (CreateTask s task w).2.calls = w.calls ++ [Call.Create task] ∧
      (CreateTask s task w).2.redis.entries = w.redis.entries) ∧
    (∀ task, (UpdateTask s task w).1 = (s.repo.Update task w.store).1 ∧
      (UpdateTask s task w).2.store = (s.repo.Update task w.store).2 ∧
      (UpdateTask s task w).2.calls = w.calls ++ [Call.Update task] ∧
      (UpdateTask s task w).2.redis.entries = w.redis.entries) ∧
    (∀ id, (DeleteTask s id w).1 = (s.repo.Delete id w.store).1 ∧
      (DeleteTask s id w).2.store = (s.repo.Delete id w.store).2 ∧
      (DeleteTask s id w).2.calls = w.calls ++ [Call.Delete id] ∧
      (DeleteTask s id w).2.redis.entries = w.redis.entries) := by
  have hf : w.redis.failing = true := hu _
  have he := entries_unreachable s w hu
  refine ⟨?_, ?_, ?_, ?_, ?_, ?_⟩
  · have h := GetAllTasks_miss_fst s w (by rw [redis.Get_fst_of_failing _ _ hf]; rfl)
    exact ⟨h.1, h.2.1, h.2.2, he.1⟩
  · intro id
    have h := GetTaskByID_miss_fst s id w (by rw [redis.Get_fst_of_failing _ _ hf]; rfl)
    exact ⟨h.1, h.2.1, h.2.2, he.2.1 id⟩
  · intro status
    have h := GetTaskByStatus_miss_fst s status w
      (by rw [redis.Get_fst_of_failing _ _ hf]; rfl)
    exact ⟨h.1, h.2.1, h.2.2, he.2.2.1 status⟩
  · intro task
    have h := CreateTask_direct s task w
    exact ⟨h.1, h.2.1, h.2.2, he.2.2.2.1 task⟩
  · intro task
    have h := UpdateTask_direct s task w
    exact ⟨h.1, h.2.1, h.2.2, he.2.2.2.2.1 task⟩
  · intro id
    have h := DeleteTask_direct s id w
    exact ⟨h.1, h.2.1, h.2.2, he.2.2.2.2.2 id⟩

/-- C5 on an example: with an unreachable cache that holds a stale empty
listing, `GetAllTasks` returns the row of the table after one `FindAll`. -/
theorem unreachable_cache_lists_store :
    sample.worldDown.redis.unreachable ∧
    (GetAllTasks sample.svc sample.worldDown).1 = .ok [sample.task1] ∧
    (GetAllTasks sample.svc sample.worldDown).2.calls = [Call.FindAll] :=
  have h := unreachable_cache_is_store_direct sample.svc sample.worldDown (fun _ => rfl)
  ⟨fun _ => rfl, h.1.1.trans (by decide), h.1.2.2.1⟩

end service

/-! ## C6: a second listing within the time-to-live -/

namespace service

open repository

/-- C6, refuted: (1) the first `GetAllTasks` runs on a cache with no entry
under `tasks:all` and succeeds, but its `SETEX` fails and the failure is
dropped; the second call, made at once after another program inserted a row,
finds no entry, queries the store again and returns a different list; (2) the
same happens when the first call primes the cache and the `GET` of the second
call fails. -/
theorem second_list_queries_store_after_lost_set :
    (sample.worldLostSet.redis.entries cacheAllTasks = none ∧
      (GetAllTasks sample.svc sample.worldLostSet).1 = .ok [sample.task1] ∧
      (GetAllTasks sample.svc sample.worldLostSet).2.calls = [Call.FindAll] ∧
      (GetAllTasks sample.svc
        (sample.later (GetAllTasks sample.svc sample.worldLostSet).2 0)).1
        = .ok [sample.task1, sample.task0] ∧
      (GetAllTasks sample.svc
        (sample.later (GetAllTasks sample.svc sample.worldLostSet).2 0)).2.calls
        = [Call.FindAll, Call.FindAll]) ∧
    (sample.worldLostGet.redis.entries cacheAllTasks = none ∧
      (GetAllTasks sample.svc sample.worldLostGet).1 = .ok [sample.task1] ∧
      (GetAllTasks sample.svc sample.worldLostGet).2.redis.entries cacheAllTasks
        = some ⟨"[" ++ sample.doc1 ++ "]", 70⟩ ∧
      (GetAllTasks sample.svc
        (sample.later (GetAllTasks sample.svc sample.worldLostGet).2 0)).1
        = .ok [sample.task1, sample.task0] ∧
      (GetAllTasks sample.svc
        (sample.later (GetAllTasks sample.svc sample.worldLostGet).2 0)).2.calls
        = [Call.FindAll, Call.FindAll]) := by
  refine ⟨⟨rfl, by decide, by decide, by decide, by decide⟩,
    rfl, by decide, by decide, by decide, by decide⟩

/-- C6 (amended): for every store state, if `GetAllTasks` is called on a cache
with no entry under `tasks:all` and returns the list `tasks`, the `SETEX` of
that call is performed, and `tasks` survives the JSON round trip (`Marshal`
gives `data` and `Unmarshal data` gives `tasks` back), then a second call whose
`GET` is performed less than 60 seconds later, on the cache entries the first
call left and on any store whatever, returns `tasks` again (hence the same JSON
text), makes no repository call and leaves the store alone. -/
theorem primed_list_is_served_from_cache {σ : Type} (s : taskService σ) (w v : World σ)
    (tasks : List Task) (data : String)
    (habs : w.redis.entries cacheAllTasks = none)
    (hfirst : (GetAllTasks s w).1 = .ok tasks)
    (hset : w.redis.faults (w.redis.log.length + 1) = false)
    (hM : s.json.MarshalTasks tasks = some data)
    (hU : s.json.UnmarshalTasks data = some tasks)
    (hentries : v.redis.entries = (GetAllTasks s w).2.redis.entries)
    (hnow : v.redis.now < w.redis.now + 60)
    (hget : v.redis.failing = false) :
    (GetAllTasks s v).1 = .ok tasks ∧
    (GetAllTasks s v).2.calls = v.calls ∧
    (GetAllTasks s v).2.store = v.store := by
  have hm : (w.redis.Get cacheAllTasks).1.bind s.json.UnmarshalTasks = none := by
    rw [redis.Get_fst_of_absent _ _ habs]; rfl
  have hstep := GetAllTasks_miss s w hm
  have hentry : v.redis.entries cacheAllTasks = some ⟨data, w.redis.now + 60⟩ := by
    rw [hentries, hstep]
    rw [hstep] at hfirst
    cases hr : (s.repo.FindAll w.store).1 with
    | error err => simp [hr] at hfirst
    | ok found =>
      simp only [hr, Except.ok.injEq] at hfirst ⊢
      subst hfirst
      have hf : (w.redis.Get cacheAllTasks).2.failing = false := by
        rw [redis.Get_snd]
        simpa [redis.Client.failing] using hset
      rw [redis.SetEx_entries_of_performed _ _ _ _ hf, hM, redis.Get_snd]
      rfl
  have hhit : (v.redis.Get cacheAllTasks).1 = some data := by
    rw [redis.Get_fst_of_performed _ _ hget]
    simp [redis.Client.live, hentry, hnow]
  unfold GetAllTasks
  simp [hhit, hU, hM]

/-- C6 (amended) on an example: the first call primes the cache; 59 seconds
later, with another row in the table, the second call returns the first list
and the record of repository calls still holds the single `FindAll`. -/
theorem primed_list_after_59_seconds :
    sample.worldCold.redis.entries cacheAllTasks = none ∧
    (GetAllTasks sample.svc sample.worldCold).1 = .ok [sample.task1] ∧
    (GetAllTasks sample.svc (sample.later (GetAllTasks sample.svc sample.worldCold).2 59)).1
      = .ok [sample.task1] ∧
    (GetAllTasks sample.svc
      (sample.later (GetAllTasks sample.svc sample.worldCold).2 59)).2.calls
      = [Call.FindAll] :=
  have h := primed_list_is_served_from_cache sample.svc sample.worldCold
    (sample.later (GetAllTasks sample.svc sample.worldCold).2 59) [sample.task1]
    ("[" ++ sample.doc1 ++ "]") rfl (by decide) rfl (by decide) (by decide) rfl
    (by decide) rfl
  ⟨rfl, by decide, h.1, h.2.1.trans (by decide)⟩

end service

/-! ## C7: an identifier the store does not have -/

namespace service

open repository

/-- C7: for every identifier `N` for which the cache yields no usable entry
under `tasks:id:N` (the `GET` fails, finds nothing live, or yields text that
does not deserialize) and for which the repository finds no row (as the SQL
repository does on a working connection when no row of the table has that
identifier), `GetTaskByID N` returns the not-found outcome (nil task, nil
error), sends the single command `GET`, and leaves the cache entries exactly
as they were. -/
theorem not_found_leaves_cache {σ : Type} (s : taskService σ) (w : World σ) (N : Int)
    (hmiss : (w.redis.Get (cacheTaskByID N)).1.bind s.json.UnmarshalTask = none)
    (hnone : (s.repo.FindByID N w.store).1 = .ok none) :
    (GetTaskByID s N w).1 = .ok none ∧
    (GetTaskByID s N w).2.redis.entries = w.redis.entries ∧
    (GetTaskByID s N w).2.redis.log = w.redis.log ++ [redis.Cmd.Get (cacheTaskByID N)] ∧
    (∀ db : sql.DB, db.fault = none → (∀ t, t ∈ db.tasks → t.IDTask ≠ N) →
      (repository.FindByID N db).1 = .ok none) := by
  rw [GetTaskByID_miss s N w hmiss]
  simp only [hnone, redis.Get_snd, true_and]
  intro db hf hrows
  unfold repository.FindByID
  simp only [hf, Except.ok.injEq]
  rw [List.find?_eq_none]
  intro t ht
  simpa using hrows t ht

/-- C7 on an example: the table holds row 1 only and the cache is empty;
`GetTaskByID 2` answers not found and the cache stays empty. -/
theorem not_found_at_two :
    (sample.worldCold.redis.Get (cacheTaskByID 2)).1.bind sample.svc.json.UnmarshalTask = none ∧
    (sample.svc.repo.FindByID 2 sample.worldCold.store).1 = .ok none ∧
    (GetTaskByID sample.svc 2 sample.worldCold).1 = .ok none ∧
    (GetTaskByID sample.svc 2 sample.worldCold).2.redis.entries
      = sample.worldCold.redis.entries :=
  have h := not_found_leaves_cache sample.svc sample.worldCold 2 (by decide) (by decide)
  ⟨by decide, by decide, h.1, h.2.1⟩

end service

/-! ## C8: what a read writes on a miss -/

namespace redis

theorem Get_then_SetEx (r : Client) (key data : String) (ttl : Nat) :
    ((r.Get key).2.SetEx key data ttl).log
      = r.log ++ [Cmd.Get key, Cmd.SetEx key data ttl] ∧
    (∀ k, k ≠ key → ((r.Get key).2.SetEx key data ttl).entries k = r.entries k) ∧
    (r.faults (r.log.length + 1) = false →
      ((r.Get key).2.SetEx key data ttl).entries key = some ⟨data, r.now + ttl⟩) := by
  refine ⟨?_, ?_, ?_⟩
  · rw [SetEx_log, Get_snd]; simp
  · intro k hk
    rw [SetEx_entries_other _ _ _ _ _ hk, Get_snd]
  · intro hf
    have hf2 : (r.Get key).2.failing = false := by
      rw [Get_snd]; simpa [Client.failing] using hf
    rw [SetEx_entries_of_performed _ _ _ _ hf2, Get_snd]

end redis

namespace service

open repository

/-- C8: on a cache miss or deserialize failure, when the repository returns a
result (for `GetTaskByID` a found task) that `json.Marshal` serializes to
`data`, each read returns the result of the repository and sends exactly two
commands: the `GET` and one `SETEX` of `data` with a time-to-live of 60 seconds,
under `tasks:all` for `GetAllTasks`, `tasks:id:N` for `GetTaskByID N` and
`tasks:status:S` for `GetTaskByStatus S`; every other key keeps its entry, and
when the `SETEX` is performed the key holds `data` expiring 60 seconds after
the call. -/
theorem read_miss_populates {σ : Type} (s : taskService σ) (w : World σ) :
    (∀ tasks data,
      (w.redis.Get cacheAllTasks).1.bind s.json.UnmarshalTasks = none →
      (s.repo.FindAll w.store).1 = .ok tasks →
      s.json.MarshalTasks tasks = some data →
      (GetAllTasks s w).1 = .ok tasks ∧
      (GetAllTasks s w).2.redis.log = w.redis.log ++
        [redis.Cmd.Get cacheAllTasks, redis.Cmd.SetEx cacheAllTasks data 60] ∧
      (∀ k, k ≠ cacheAllTasks → (GetAllTasks s w).2.redis.entries k = w.redis.entries k) ∧
      (w.redis.faults (w.redis.log.length + 1) = false →
        (GetAllTasks s w).2.redis.entries cacheAllTasks = some ⟨data, w.redis.now + 60⟩)) ∧
    (∀ N task data,
      (w.redis.Get (cacheTaskByID N)).1.bind s.json.UnmarshalTask = none →
      (s.repo.FindByID N w.store).1 = .ok (some task) →
      s.json.MarshalTask task = some data →
      (GetTaskByID s N w).1 = .ok (some task) ∧
      (GetTaskByID s N w).2.redis.log = w.redis.log ++
        [redis.Cmd.Get (cacheTaskByID N), redis.Cmd.SetEx (cacheTaskByID N) data 60] ∧
      (∀ k, k ≠ cacheTaskByID N →
        (GetTaskByID s N w).2.redis.entries k = w.redis.entries k) ∧
      (w.redis.faults (w.redis.log.length + 1) = false →
        (GetTaskByID s N w).2.redis.entries (cacheTaskByID N)
          = some ⟨data, w.redis.now + 60⟩)) ∧
    (∀ S tasks data,
      (w.redis.Get (cacheTaskStatus S)).1.bind s.json.UnmarshalTasks = none →
      (s.repo.FindByStatus S w.store).1 = .ok tasks →
      s.json.MarshalTasks tasks = some data →
      (GetTaskByStatus s S w).1 = .ok tasks ∧
      (GetTaskByStatus s S w).2.redis.log = w.redis.log ++
        [redis.Cmd.Get (cacheTaskStatus S), redis.Cmd.SetEx (cacheTaskStatus S) data 60] ∧
      (∀ k, k ≠ cacheTaskStatus S →
        (GetTaskByStatus s S w).2.redis.entries k = w.redis.entries k) ∧
      (w.redis.faults (w.redis.log.length + 1) = false →
        (GetTaskByStatus s S w).2.redis.entries (cacheTaskStatus S)
          = some ⟨data, w.redis.now + 60⟩)) := by
  refine ⟨?_, ?_, ?_⟩
  · intro tasks data hm hr hM
    rw [GetAllTasks_miss s w hm]
    simp only [hr, hM, Option.getD_some]
    exact ⟨trivial, redis.Get_then_SetEx w.redis cacheAllTasks data cacheTTL⟩
  · intro N task data hm hr hM
    rw [GetTaskByID_miss s N w hm]
    simp only [hr, hM, Option.getD_some]
    exact ⟨trivial, redis.Get_then_SetEx w.redis (cacheTaskByID N) data cacheTTL⟩
  · intro S tasks data hm hr hM
    rw [GetTaskByStatus_miss s S w hm]
    simp only [hr, hM, Option.getD_some]
    exact ⟨trivial, redis.Get_then_SetEx w.redis (cacheTaskStatus S) data cacheTTL⟩

/-- C8 on an example: on the empty cache the three reads of row 1 each store
the JSON text of their result under their own key, expiring at second 70. -/
theorem read_miss_populates_cold :
    (GetAllTasks sample.svc sample.worldCold).1 = .ok [sample.task1] ∧
    (GetAllTasks sample.svc sample.worldCold).2.redis.entries "tasks:all"
      = some ⟨"[" ++ sample.doc1 ++ "]", 70⟩ ∧
    (GetTaskByID sample.svc 1 sample.worldCold).1 = .ok (some sample.task1) ∧
    (GetTaskByID sample.svc 1 sample.worldCold).2.redis.entries "tasks:id:1"
      = some ⟨sample.doc1, 70⟩ ∧
    (GetTaskByStatus sample.svc "pending" sample.worldCold).1 = .ok [sample.task1] ∧
    (GetTaskByStatus sample.svc "pending" sample.worldCold).2.redis.entries
      "tasks:status:pending" = some ⟨"[" ++ sample.doc1 ++ "]", 70⟩ :=
  have h := read_miss_populates sample.svc sample.worldCold
  have h1 := h.1 [sample.task1] ("[" ++ sample.doc1 ++ "]") (by decide) (by decide)
    (by decide)
  have h2 := h.2.1 1 sample.task1 sample.doc1 (by decide) (by decide) (by decide)
  have h3 := h.2.2 "pending" [sample.task1] ("[" ++ sample.doc1 ++ "]") (by decide)
    (by decide) (by decide)
  ⟨h1.1, h1.2.2.2 rfl, h2.1, h2.2.2.2 rfl, h3.1, h3.2.2.2 rfl⟩

end service

/-! ## C9: a failing store -/

namespace service

open repository

/-- C9: if the repository call of an operation returns the error `e` (for the
three reads: on a cache miss or deserialize failure), the operation returns the
same error `e` and no value, the record of repository calls grows by that one
call, and the cache is untouched: a read has sent its `GET` and nothing else,
with every entry as before, and a write has sent no command at all.  In
particular `Delete` of the SQL repository on a working connection with no row
of that identifier returns `sql.ErrNoRows` and leaves the table as it was, so
`DeleteTask` returns that error without invalidating. -/
theorem store_failure_propagates {σ : Type} (s : taskService σ) (w : World σ) (e : Err) :
    ((w.redis.Get cacheAllTasks).1.bind s.json.UnmarshalTasks = none →
      (s.repo.FindAll w.store).1 = .error e →
      (GetAllTasks s w).1 = .error e ∧
      (GetAllTasks s w).2.calls = w.calls ++ [Call.FindAll] ∧
      (GetAllTasks s w).2.redis.entries = w.redis.entries ∧
      (GetAllTasks s w).2.redis.log = w.redis.log ++ [redis.Cmd.Get cacheAllTasks]) ∧
    (∀ N, (w.redis.Get (cacheTaskByID N)).1.bind s.json.UnmarshalTask = none →
      (s.repo.FindByID N w.store).1 = .error e →
      (GetTaskByID s N w).1 = .error e ∧
      (GetTaskByID s N w).2.calls = w.calls ++ [Call.FindByID N] ∧
      (GetTaskByID s N w).2.redis.entries = w.redis.entries ∧
      (GetTaskByID s N w).2.redis.log = w.redis.log ++ [redis.Cmd.Get (cacheTaskByID N)]) ∧
    (∀ S, (w.redis.Get (cacheTaskStatus S)).1.bind s.json.UnmarshalTasks = none →
      (s.repo.FindByStatus S w.store).1 = .error e →
      (GetTaskByStatus s S w).1 = .error e ∧
      (GetTaskByStatus s S w).2.calls = w.calls ++ [Call.FindByStatus S] ∧
      (GetTaskByStatus s S w).2.redis.entries = w.redis.entries ∧
      (GetTaskByStatus s S w).2.redis.log
        = w.redis.log ++ [redis.Cmd.Get (cacheTaskStatus S)]) ∧
    (∀ task, (s.repo.Create task w.store).1 = .error e →
      (CreateTask s task w).1 = .error e ∧
      (CreateTask s task w).2.calls = w.calls ++ [Call.Create task] ∧
      (CreateTask s task w).2.redis = w.redis) ∧
    (∀ task, (s.repo.Update task w.store).1 = .error e →
      (UpdateTask s task w).1 = .error e ∧
      (UpdateTask s task w).2.calls = w.calls ++ [Call.Update task] ∧
      (UpdateTask s task w).2.redis = w.redis) ∧
    (∀ id, (s.repo.Delete id w.store).1 = some e →
      (DeleteTask s id w).1 = some e ∧
      (DeleteTask s id w).2.calls = w.calls ++ [Call.Delete id] ∧
      (DeleteTask s id w).2.redis = w.redis) ∧
    (∀ (db : sql.DB) (id : Int), db.fault = none → (∀ t, t ∈ db.tasks → t.IDTask ≠ id) →
      (repository.Delete id db).1 = some Err.ErrNoRows ∧ (repository.Delete id db).2 = db) := by
  refine ⟨?_, ?_, ?_, ?_, ?_, ?_, ?_⟩
  · intro hm hr
    rw [GetAllTasks_miss s w hm]
    simp [hr, redis.Get_snd]
  · intro N hm hr
    rw [GetTaskByID_miss s N w hm]
    simp [hr, redis.Get_snd]
  · intro S hm hr
    rw [GetTaskByStatus_miss s S w hm]
    simp [hr, redis.Get_snd]
  · intro task hr
    unfold CreateTask
    simp [hr]
  · intro task hr
    unfold UpdateTask
    simp [hr]
  · intro id hr
    unfold DeleteTask
    simp [hr]
  · intro db id hf hrows
    have h0 : db.tasks.filter (fun t => t.IDTask = id) = [] := by
      rw [List.filter_eq_nil_iff]
      intro t ht
      simpa using hrows t ht
    unfold repository.Delete
    simp [hf, h0]

/-- C9 on an example: with a broken connection `GetAllTasks` and `DeleteTask 1`
return the connection error and the cache keeps its entry under `tasks:id:1`;
on a working connection `DeleteTask 2`, for which the table has no row, returns
`sql.ErrNoRows` and sends no command. -/
theorem store_failure_on_broken_connection :
    (GetAllTasks sample.svc sample.worldBroken).1 = .error sample.refused ∧
    (GetAllTasks sample.svc sample.worldBroken).2.redis.log = [redis.Cmd.Get "tasks:all"] ∧
    (DeleteTask sample.svc 1 sample.worldBroken).1 = some sample.refused ∧
    (DeleteTask sample.svc 1 sample.worldBroken).2.redis = sample.worldBroken.redis ∧
    (DeleteTask sample.svc 2 sample.worldCold).1 = some Err.ErrNoRows ∧
    (DeleteTask sample.svc 2 sample.worldCold).2.redis.log = [] :=
  have h := store_failure_propagates sample.svc sample.worldBroken sample.refused
  have h1 := h.1 (by decide) (by decide)
  have h6 := h.2.2.2.2.2.1 1 (by decide)
  have hc := store_failure_propagates sample.svc sample.worldCold Err.ErrNoRows
  have h7 := (hc.2.2.2.2.2.2 sample.oneRowDB 2 rfl (by decide)).1
  have h8 := hc.2.2.2.2.2.1 2 h7
  ⟨h1.1, h1.2.2.2, h6.1, h6.2.2, h8.1, congrArg redis.Client.log h8.2.2⟩

end service

/-! ## C10: the title check of the handlers -/

namespace strings

theorem all_dropWhile_iff (p : Char → Bool) (l : List Char) :
    (∀ c, c ∈ l.dropWhile p → p c = true) ↔ (∀ c, c ∈ l → p c = true) := by
  induction l with
  | nil => simp
  | cons a t ih =>
    by_cases ha : p a = true
    · simp only [List.dropWhile_cons_of_pos ha, ih, List.mem_cons, forall_eq_or_imp, ha,
        true_and]
    · simp only [List.dropWhile_cons_of_neg ha]

theorem TrimSpace_eq_empty_iff (s : String) :
    TrimSpace s = "" ↔ ∀ c, c ∈ s.data → unicode.IsSpace c = true := by
  unfold TrimSpace
  rw [String.ext_iff]
  show (List.dropWhile unicode.IsSpace (List.dropWhile unicode.IsSpace s.data).reverse).reverse
    = [] ↔ _
  rw [List.reverse_eq_nil_iff, List.dropWhile_eq_nil_iff]
  simp only [List.mem_reverse]
  exact all_dropWhile_iff unicode.IsSpace s.data

theorem TrimSpace_ne_empty (s : String) (h : TrimSpace s ≠ "") : s ≠ "" := by
  intro hs
  apply h
  rw [TrimSpace_eq_empty_iff, hs]
  intro c hc
  cases hc

end strings

namespace handler

open service

theorem fillDefaults_Title (task : Task) : (fillDefaults task).Title = task.Title := by
  unfold fillDefaults
  by_cases h1 : task.Status = "" <;> by_cases h2 : task.Priority = "" <;> simp [h1, h2]

/-- C10: for every request, if the decoded body has a title that is empty or
consists of white space only, the `CreateTask` and `UpdateTask` handlers answer
bad-request and make no service call (state and record of calls are as
before); and each handler either makes no service call or makes exactly one,
`service.CreateTask` or `service.UpdateTask`, with a task whose title is not
empty and not blank. -/
theorem blank_title_never_reaches_service {ω : Type} (h : TaskHandler ω) (r : Request)
    (st : Served ω) :
    (∀ decoded, h.json.Decode r.body = some decoded →
      (∀ c, c ∈ decoded.Title.data → unicode.IsSpace c = true) →
      (CreateTask h r st).1.status = StatusBadRequest ∧ (CreateTask h r st).2 = st ∧
      (UpdateTask h r st).1.status = StatusBadRequest ∧ (UpdateTask h r st).2 = st) ∧
    ((CreateTask h r st).2.calls = st.calls ∨
      ∃ task, task.Title ≠ "" ∧ strings.TrimSpace task.Title ≠ "" ∧
        (CreateTask h r st).2.calls = st.calls ++ [Invocation.CreateTask task]) ∧
    ((UpdateTask h r st).2.calls = st.calls ∨
      ∃ task, task.Title ≠ "" ∧ strings.TrimSpace task.Title ≠ "" ∧
        (UpdateTask h r st).2.calls = st.calls ++ [Invocation.UpdateTask task]) := by
  refine ⟨?_, ?_, ?_⟩
  · intro decoded hd hblank
    have ht : strings.TrimSpace decoded.Title = "" :=
      (strings.TrimSpace_eq_empty_iff _).mpr hblank
    refine ⟨?_, ?_, ?_, ?_⟩
    · simp [CreateTask, hd, ht, writeError]
    · simp [CreateTask, hd, ht]
    · unfold UpdateTask
      cases extractID r <;> simp [hd, ht, writeError]
    · unfold UpdateTask
      cases extractID r <;> simp [hd, ht]
  · unfold CreateTask
    cases hd : h.json.Decode r.body with
    | none => exact Or.inl rfl
    | some decoded =>
      by_cases ht : strings.TrimSpace decoded.Title = ""
      · left; simp [ht]
      · right
        simp only [ht, if_false]
        refine ⟨fillDefaults decoded, ?_, ?_, ?_⟩
        · rw [fillDefaults_Title]; exact strings.TrimSpace_ne_empty _ ht
        · rw [fillDefaults_Title]; exact ht
        · split <;> rfl
  · unfold UpdateTask
    cases extractID r with
    | none => exact Or.inl rfl
    | some id =>
      cases hd : h.json.Decode r.body with
      | none => exact Or.inl rfl
      | some decoded =>
        by_cases ht : strings.TrimSpace decoded.Title = ""
        · left; simp [ht]
        · right
          simp only [ht, if_false]
          refine ⟨{ decoded with IDTask := id }, ?_, ?_, ?_⟩
          · exact strings.TrimSpace_ne_empty _ ht
          · exact ht
          · split <;> rfl

/-- C10 on an example: a body whose title is two spaces is answered with
status 400 by both handlers and no service call is recorded; a body with the
title `Write spec` reaches `service.CreateTask` with that title and with the
default status and priority. -/
theorem blank_title_rejected :
    sample.taskHandler.json.Decode sample.docBlank = some sample.blank ∧
    (∀ c, c ∈ sample.blank.Title.data → unicode.IsSpace c = true) ∧
    (CreateTask sample.taskHandler ⟨"1", "", sample.docBlank⟩ sample.served).1.status = 400 ∧
    (CreateTask sample.taskHandler ⟨"1", "", sample.docBlank⟩ sample.served).2.calls = [] ∧
    (UpdateTask sample.taskHandler ⟨"1", "", sample.docBlank⟩ sample.served).1.status = 400 ∧
    (UpdateTask sample.taskHandler ⟨"1", "", sample.docBlank⟩ sample.served).2.calls = [] ∧
    (CreateTask sample.taskHandler ⟨"", "", sample.docTitled⟩ sample.served).2.calls =
      [Invocation.CreateTask
        { sample.titled with Status := "pending", Priority := "medium" }] :=
  have h := (blank_title_never_reaches_service sample.taskHandler
    ⟨"1", "", sample.docBlank⟩ sample.served).1 sample.blank (by decide) (by decide)
  ⟨by decide, by decide, h.1, congrArg Served.calls h.2.1, h.2.2.1,
    congrArg Served.calls h.2.2.2, by decide⟩

end handler

/-! ## C11: the cache keys -/

namespace strconv

theorem digits_append (pre ds : List Char) (acc : Nat) :
    digits (pre ++ ds) acc = (digits pre acc).bind (digits ds) := by
  induction pre generalizing acc with
  | nil => rfl
  | cons c cs ih =>
    simp only [List.cons_append, digits]
    split_ifs
    · exact ih _
    · rfl

theorem digits_digitChar (k acc : Nat) (hk : k < 10) :
    digits [Nat.digitChar k] acc = some (acc * 10 + k) := by
  have h : ∀ j, j < 10 → (48 ≤ (Nat.digitChar j).toNat ∧ (Nat.digitChar j).toNat ≤ 57) ∧
      (Nat.digitChar j).toNat - 48 = j := by decide
  simp [digits, h k hk]

theorem digitChar_ne_minus (k : Nat) (hk : k < 10) : (Nat.digitChar k).toNat ≠ 45 := by
  have h : ∀ j, j < 10 → (Nat.digitChar j).toNat ≠ 45 := by decide
  exact h k hk

/-- The decimal digits printed for `n` in front of `ds` read back as `n`, and
none of them is the minus sign. -/
theorem toDigitsCore_reads_back (fuel n : Nat) (ds : List Char) (hfuel : n < fuel) :
    ∃ pre, Nat.toDigitsCore 10 fuel n ds = pre ++ ds ∧ digits pre 0 = some n ∧
      ∀ c, c ∈ pre → c.toNat ≠ 45 := by
  induction fuel generalizing n ds with
  | zero => omega
  | succ fuel ih =>
    have hmod : n % 10 < 10 := Nat.mod_lt _ (by decide)
    unfold Nat.toDigitsCore
    by_cases h0 : n / 10 = 0
    · refine ⟨[Nat.digitChar (n % 10)], by simp [h0], ?_, ?_⟩
      · rw [digits_digitChar _ _ hmod]
        congr 1
        omega
      · intro c hc
        rw [List.mem_singleton] at hc
        subst hc
        exact digitChar_ne_minus _ hmod
    · obtain ⟨pre, hpre, hval, hminus⟩ :=
        ih (n / 10) (Nat.digitChar (n % 10) :: ds) (by omega)
      refine ⟨pre ++ [Nat.digitChar (n % 10)], by simp [h0, hpre], ?_, ?_⟩
      · rw [digits_append, hval, Option.some_bind, digits_digitChar _ _ hmod]
        congr 1
        omega
      · intro c hc
        rcases List.mem_append.mp hc with h | h
        · exact hminus c h
        · rw [List.mem_singleton] at h
          subst h
          exact digitChar_ne_minus _ hmod

theorem repr_reads_back (n : Nat) :
    digits (Nat.repr n).data 0 = some n ∧ ∀ c, c ∈ (Nat.repr n).data → c.toNat ≠ 45 := by
  obtain ⟨pre, hpre, hval, hminus⟩ := toDigitsCore_reads_back (n + 1) n [] (by omega)
  have hdata : (Nat.repr n).data = pre := by
    simp [Nat.repr, Nat.toDigits, List.asString, hpre]
  rw [hdata]
  exact ⟨hval, hminus⟩

theorem repr_injective (a b : Nat) (h : Nat.repr a = Nat.repr b) : a = b := by
  have ha := (repr_reads_back a).1
  rw [h, (repr_reads_back b).1] at ha
  exact (Option.some.inj ha).symm

/-- The decimal text of an integer, as the verb `%d` prints it, determines the
integer. -/
theorem toString_int_injective (a b : Int) (h : toString a = toString b) : a = b := by
  have hminus : ("-" : String).data = [Char.ofNat 45] := by decide
  cases a with
  | ofNat m =>
    cases b with
    | ofNat k =>
      have h2 : Nat.repr m = Nat.repr k := h
      rw [repr_injective m k h2]
    | negSucc k =>
      exfalso
      have h2 : Nat.repr m = "-" ++ Nat.repr (k + 1) := h
      have hmem : Char.ofNat 45 ∈ (Nat.repr m).data := by
        rw [h2, String.data_append, hminus]; simp
      exact (repr_reads_back m).2 _ hmem (by decide)
  | negSucc m =>
    cases b with
    | ofNat k =>
      exfalso
      have h2 : "-" ++ Nat.repr (m + 1) = Nat.repr k := h
      have hmem : Char.ofNat 45 ∈ (Nat.repr k).data := by
        rw [← h2, String.data_append, hminus]; simp
      exact (repr_reads_back k).2 _ hmem (by decide)
    | negSucc k =>
      have h2 : "-" ++ Nat.repr (m + 1) = "-" ++ Nat.repr (k + 1) := h
      have h3 := congrArg String.data h2
      rw [String.data_append, String.data_append] at h3
      have h4 := repr_injective _ _ (String.ext (List.append_cancel_left h3))
      have h5 : m = k := by omega
      rw [h5]

end strconv

namespace service

open repository

theorem cacheTaskByID_inj (N M : Int) (h : cacheTaskByID N = cacheTaskByID M) : N = M := by
  unfold cacheTaskByID at h
  have h2 := congrArg String.data h
  rw [String.data_append, String.data_append] at h2
  exact strconv.toString_int_injective N M (String.ext (List.append_cancel_left h2))

theorem cacheTaskStatus_inj (S T : String) (h : cacheTaskStatus S = cacheTaskStatus T) :
    S = T := by
  unfold cacheTaskStatus at h
  have h2 := congrArg String.data h
  rw [String.data_append, String.data_append] at h2
  exact String.ext (List.append_cancel_left h2)

theorem cacheTaskByID_ne_all (N : Int) : cacheTaskByID N ≠ cacheAllTasks := by
  intro h
  have h2 := congrArg String.data h
  simp [cacheTaskByID, cacheAllTasks, String.data_append] at h2

theorem cacheTaskStatus_ne_all (S : String) : cacheTaskStatus S ≠ cacheAllTasks := by
  intro h
  have h2 := congrArg String.data h
  simp [cacheTaskStatus, cacheAllTasks, String.data_append] at h2

theorem cacheTaskByID_ne_status (N : Int) (S : String) :
    cacheTaskByID N ≠ cacheTaskStatus S := by
  intro h
  have h2 := congrArg String.data h
  simp [cacheTaskByID, cacheTaskStatus, String.data_append] at h2

/-- A read changes no entry but the one under its own key. -/
theorem read_touches_own_key {σ : Type} (s : taskService σ) (w : World σ) :
    (∀ k, k ≠ cacheAllTasks → (GetAllTasks s w).2.redis.entries k = w.redis.entries k) ∧
    (∀ N k, k ≠ cacheTaskByID N →
      (GetTaskByID s N w).2.redis.entries k = w.redis.entries k) ∧
    (∀ S k, k ≠ cacheTaskStatus S →
      (GetTaskByStatus s S w).2.redis.entries k = w.redis.entries k) := by
  refine ⟨?_, ?_, ?_⟩
  · intro k hk
    cases hm : (w.redis.Get cacheAllTasks).1.bind s.json.UnmarshalTasks with
    | some tasks =>
      unfold GetAllTasks
      simp only [hm, redis.Get_snd]
    | none =>
      rw [GetAllTasks_miss s w hm]
      cases hr : (s.repo.FindAll w.store).1 with
      | error err => simp only [redis.Get_snd]
      | ok tasks =>
        simp only []
        rw [redis.SetEx_entries_other _ _ _ _ _ hk, redis.Get_snd]
  · intro N k hk
    cases hm : (w.redis.Get (cacheTaskByID N)).1.bind s.json.UnmarshalTask with
    | some task =>
      unfold GetTaskByID
      simp only [hm, redis.Get_snd]
    | none =>
      rw [GetTaskByID_miss s N w hm]
      cases hr : (s.repo.FindByID N w.store).1 with
      | error err => simp only [redis.Get_snd]
      | ok t =>
        cases t with
        | none => simp only [redis.Get_snd]
        | some task =>
          simp only []
          rw [redis.SetEx_entries_other _ _ _ _ _ hk, redis.Get_snd]
  · intro S k hk
    cases hm : (w.redis.Get (cacheTaskStatus S)).1.bind s.json.UnmarshalTasks with
    | some tasks =>
      unfold GetTaskByStatus
      simp only [hm, redis.Get_snd]
    | none =>
      rw [GetTaskByStatus_miss s S w hm]
      cases hr : (s.repo.FindByStatus S w.store).1 with
      | error err => simp only [redis.Get_snd]
      | ok tasks =>
        simp only []
        rw [redis.SetEx_entries_other _ _ _ _ _ hk, redis.Get_snd]

/-- C11: the cache keys do not collide.  For all identifiers `N`, `M` and all
status strings `S`, `T`: `tasks:id:N` equals `tasks:id:M` exactly when `N = M`,
`tasks:status:S` equals `tasks:status:T` exactly when `S = T`, and an id key, a
status key and `tasks:all` are pairwise different.  Hence a read of one kind
leaves the entry under every key of another kind, and under the key of its own
kind for another parameter, exactly as it was: what a later read is served
from such a key was not written by that read. -/
theorem cache_keys_collision_free (N M : Int) (S T : String) :
    cacheTaskByID N = "tasks:id:" ++ toString N ∧
    cacheTaskStatus S = "tasks:status:" ++ S ∧
    cacheAllTasks = "tasks:all" ∧
    (cacheTaskByID N = cacheTaskByID M ↔ N = M) ∧
    (cacheTaskStatus S = cacheTaskStatus T ↔ S = T) ∧
    cacheTaskByID N ≠ cacheAllTasks ∧
    cacheTaskStatus S ≠ cacheAllTasks ∧
    cacheTaskByID N ≠ cacheTaskStatus S ∧
    (∀ (σ : Type) (s : taskService σ) (w : World σ),
      (GetAllTasks s w).2.redis.entries (cacheTaskByID N)
        = w.redis.entries (cacheTaskByID N) ∧
      (GetAllTasks s w).2.redis.entries (cacheTaskStatus S)
        = w.redis.entries (cacheTaskStatus S) ∧
      (GetTaskByID s N w).2.redis.entries cacheAllTasks = w.redis.entries cacheAllTasks ∧
      (GetTaskByID s N w).2.redis.entries (cacheTaskStatus S)
        = w.redis.entries (cacheTaskStatus S) ∧
      (M ≠ N → (GetTaskByID s N w).2.redis.entries (cacheTaskByID M)
        = w.redis.entries (cacheTaskByID M)) ∧
      (GetTaskByStatus s S w).2.redis.entries cacheAllTasks = w.redis.entries cacheAllTasks ∧
      (GetTaskByStatus s S w).2.redis.entries (cacheTaskByID N)
        = w.redis.entries (cacheTaskByID N) ∧
      (T ≠ S → (GetTaskByStatus s S w).2.redis.entries (cacheTaskStatus T)
        = w.redis.entries (cacheTaskStatus T))) := by
  refine ⟨rfl, rfl, rfl, ⟨cacheTaskByID_inj N M, fun h => by rw [h]⟩,
    ⟨cacheTaskStatus_inj S T, fun h => by rw [h]⟩, cacheTaskByID_ne_all N,
    cacheTaskStatus_ne_all S, cacheTaskByID_ne_status N S, ?_⟩
  intro σ s w
  have hf := read_touches_own_key s w
  refine ⟨hf.1 _ (cacheTaskByID_ne_all N), hf.1 _ (cacheTaskStatus_ne_all S),
    hf.2.1 N _ (cacheTaskByID_ne_all N).symm, hf.2.1 N _ (cacheTaskByID_ne_status N S).symm,
    ?_, hf.2.2 S _ (cacheTaskStatus_ne_all S).symm, hf.2.2 S _ (cacheTaskByID_ne_status N S),
    ?_⟩
  · intro hne
    exact hf.2.1 N _ (fun h => hne (cacheTaskByID_inj M N h))
  · intro hne
    exact hf.2.2 S _ (fun h => hne (cacheTaskStatus_inj T S h))

/-- C11 on an example: on the empty cache `GetTaskByID 1` stores its result under
`tasks:id:1`, and the keys `tasks:id:2`, `tasks:all` and `tasks:status:pending`
stay without an entry. -/
theorem cache_keys_apart_at_one :
    (2 : Int) ≠ 1 ∧
    cacheTaskByID 1 ≠ cacheTaskByID 2 ∧
    (GetTaskByID sample.svc 1 sample.worldCold).2.redis.entries "tasks:id:1"
      = some ⟨sample.doc1, 70⟩ ∧
    (GetTaskByID sample.svc 1 sample.worldCold).2.redis.entries "tasks:id:2" = none ∧
    (GetTaskByID sample.svc 1 sample.worldCold).2.redis.entries "tasks:all" = none ∧
    (GetTaskByID sample.svc 1 sample.worldCold).2.redis.entries "tasks:status:pending"
      = none :=
  have h := cache_keys_collision_free 1 2 "pending" "done"
  have hw := h.2.2.2.2.2.2.2.2 sql.DB sample.svc sample.worldCold
  ⟨by decide, fun e => absurd (h.2.2.2.1.mp e) (by decide), by decide,
    hw.2.2.2.2.1 (by decide), hw.2.2.1, hw.2.2.2.1⟩

end service
